import Mathlib

/-!
Verification of the core logic of the Calendar-App-PMA weather application.

Shallow embedding of the relevant source modules:
  backend/validators/date_range.py  (DateRangeValidator)
  backend/validators/location.py    (LocationValidator)
  backend/weather_service.py        (backend WeatherService)
  backend/database.py               (weather_queries CRUD)
  backend/main.py                   (create_weather_query handler)
  src/core/weather_service.py       (core WeatherService)
  src/core/api_services.py          (RateLimiter)

Modeling conventions: calendar dates are day numbers (Int), wall-clock time
and Python floats are exact rationals (Rat), strptime outcomes are passed as
Option values (none = ValueError), and HTTP transport outcomes are passed as
Except values (error = requests.RequestException).
-/

/-! ## DateRangeValidator (backend/validators/date_range.py) -/

namespace DateRangeValidator

def MAX_DAYS_PAST : Int := 7

def MAX_DAYS_FUTURE : Int := 5

def MAX_RANGE_DAYS : Int := 5

/-- The dictionary returned by a successful DateRangeValidator.validate. -/
structure ValidRange where
  start_date : Int
  end_date : Int
  range_days : Int
deriving Repr, DecidableEq

/-- Embedding of DateRangeValidator.validate.  Dates are day numbers; the
strptime parse outcome of each input string is supplied as an Option
(none models a ValueError from strptime); today is datetime.now().date(). -/
def validate (today : Int) (start_date end_date : Option Int) :
    Bool × String × Option ValidRange :=
  match start_date, end_date with
  | some start, some stop =>
    let max_past_date := today - MAX_DAYS_PAST
    let max_future_date := today + MAX_DAYS_FUTURE
    if start > stop then
      (false, "Start date must be before or equal to end date", none)
    else
      let range_days := stop - start
      if range_days > MAX_RANGE_DAYS then
        (false, "Date range cannot exceed 5 days", none)
      else if start < max_past_date then
        (false, "Start date cannot be more than 7 days in the past", none)
      else if stop > max_future_date then
        (false, "End date cannot be more than 5 days in the future", none)
      else
        (true, "Valid date range", some ⟨start, stop, range_days + 1⟩)
  | _, _ => (false, "Invalid date format. Use %Y-%m-%d", none)

end DateRangeValidator

/-! ## Backend WeatherService.validate_date_range (backend/weather_service.py) -/

namespace BackendWeatherService

/-- Stand-in for the message text of the ValueError raised by strptime; the
library-supplied text is irrelevant to every claim. -/
def strptimeErrorMessage : String := "time data does not match format %Y-%m-%d"

/-- Embedding of WeatherService.validate_date_range.  The function raises
ValueError on failure (modeled as Except.error carrying the wrapped message)
and returns True on success.  Note the check order differs from
DateRangeValidator.validate: past bound and future bound are checked before
the range-size check. -/
def validate_date_range (today : Int) (start_date end_date : Option Int) :
    Except String Bool :=
  match start_date, end_date with
  | some start, some stop =>
    let max_future := today + 5
    let max_past := today - 7
    if start > stop then
      .error "Date validation error: Start date must be before end date"
    else if start < max_past then
      .error "Date validation error: Start date cannot be more than 7 days in the past"
    else if stop > max_future then
      .error "Date validation error: End date cannot be more than 5 days in the future"
    else if stop - start > 5 then
      .error "Date validation error: Date range cannot exceed 5 days"
    else
      .ok true
  | _, _ => .error ("Date validation error: " ++ strptimeErrorMessage)

end BackendWeatherService

/-! ## RateLimiter (src/core/api_services.py)

Wall-clock time is passed explicitly: a call to wait_if_needed receives the
time.time() reading at entry and a nonnegative slack term covering both any
oversleep of time.sleep and the delay before the final time.time() reading.
The function returns the completion time (the value stamped into
last_request_time) together with the updated limiter state. -/

structure RateLimiter where
  requests_per_minute : ℚ
  time_between_requests : ℚ
  last_request_time : ℚ
deriving Repr

namespace RateLimiter

/-- Embedding of RateLimiter.__init__. -/
def init (rpm : ℚ) : RateLimiter :=
  { requests_per_minute := rpm
    time_between_requests := 60 / rpm
    last_request_time := 0 }

/-- Embedding of RateLimiter.wait_if_needed.  `t` is the time.time() reading
at entry; `slack` ≥ 0 absorbs scheduler delay and sleep overshoot. -/
def wait_if_needed (rl : RateLimiter) (t slack : ℚ) : ℚ × RateLimiter :=
  let time_since_last := t - rl.last_request_time
  let completion :=
    if time_since_last < rl.time_between_requests then
      t + (rl.time_between_requests - time_since_last) + slack
    else
      t + slack
  (completion, { rl with last_request_time := completion })

end RateLimiter

/-! ## backend/database.py : update_query -/

/-- A row of the weather_queries table. -/
structure WeatherQueryRow where
  id : Int
  location : String
  location_type : String
  date_range_start : Int
  date_range_end : Int
  temperature : Option ℚ
  weather_conditions : Option String
  created_at : Int
  updated_at : Int
deriving Repr, DecidableEq

/-- The effect of the UPDATE statement of update_query on a single matching
row: SET temperature = COALESCE(?, temperature),
weather_conditions = COALESCE(?, weather_conditions),
updated_at = CURRENT_TIMESTAMP. -/
def applyUpdate (r : WeatherQueryRow) (temperature : Option ℚ)
    (weather_conditions : Option String) (now : Int) : WeatherQueryRow :=
  { r with
    temperature := match temperature with
      | some v => some v
      | none => r.temperature
    weather_conditions := match weather_conditions with
      | some v => some v
      | none => r.weather_conditions
    updated_at := now }

/-- The row scan of the UPDATE ... WHERE id = ? statement: returns the new
table contents and the number of affected rows (cursor rowcount). -/
def updateScan (rows : List WeatherQueryRow) (id : Int) (temperature : Option ℚ)
    (weather_conditions : Option String) (now : Int) :
    List WeatherQueryRow × Nat :=
  match rows with
  | [] => ([], 0)
  | r :: rs =>
    let (rs', n) := updateScan rs id temperature weather_conditions now
    if r.id = id then
      (applyUpdate r temperature weather_conditions now :: rs', n + 1)
    else
      (r :: rs', n)

/-- Embedding of update_query (backend/database.py): executes the UPDATE and
returns the new table plus the boolean `rowcount > 0`. -/
def update_query (rows : List WeatherQueryRow) (id : Int)
    (temperature : Option ℚ) (weather_conditions : Option String) (now : Int) :
    List WeatherQueryRow × Bool :=
  let (rows', n) := updateScan rows id temperature weather_conditions now
  (rows', decide (n > 0))

/-! ## Helper lemmas for update_query -/

theorem updateScan_fst_eq_map (rows : List WeatherQueryRow) (id : Int)
    (temperature : Option ℚ) (weather_conditions : Option String) (now : Int) :
    (updateScan rows id temperature weather_conditions now).1 =
      rows.map (fun r =>
        if r.id = id then applyUpdate r temperature weather_conditions now
        else r) := by
  induction rows with
  | nil => rfl
  | cons r rs ih =>
    simp only [updateScan, List.map_cons]
    split <;> simp_all

theorem updateScan_snd_pos_iff (rows : List WeatherQueryRow) (id : Int)
    (temperature : Option ℚ) (weather_conditions : Option String) (now : Int) :
    ((updateScan rows id temperature weather_conditions now).2 > 0) ↔
      ∃ r ∈ rows, r.id = id := by
  induction rows with
  | nil => simp [updateScan]
  | cons r rs ih =>
    simp only [updateScan]
    by_cases h : r.id = id
    · simp [h]
    · simp only [if_neg h]
      simpa [h] using ih

/-! ## Claim C1 -/

/-- C1 (amended): when both dates parse, start ≤ end and the span exceeds 5
days, DateRangeValidator.validate fails with the 5-day message regardless of
the past and future bounds; the backend WeatherService.validate_date_range,
however, checks the past bound before the span, so when the start also lies
before the 7-days-past bound it reports the past-bound message instead. -/
theorem dateRange_span_check_order
    (today s e : Int) (_h1 : s ≤ e) (h2 : e - s > 5) :
    DateRangeValidator.validate today (some s) (some e) =
      (false, "Date range cannot exceed 5 days", none) ∧
    (s < today - 7 →
      BackendWeatherService.validate_date_range today (some s) (some e) =
        .error "Date validation error: Start date cannot be more than 7 days in the past") := by
  constructor
  · simp only [DateRangeValidator.validate]
    rw [if_neg (by omega), if_pos (by simp [DateRangeValidator.MAX_RANGE_DAYS]; omega)]
  · intro h3
    simp only [BackendWeatherService.validate_date_range]
    rw [if_neg (by omega), if_pos (by omega)]

/-- Witness for dateRange_span_check_order at today = 0, start = -10,
end = 0. -/
theorem dateRange_span_check_order_witness :
    ((-10 : Int) ≤ 0 ∧ (0 : Int) - (-10) > 5 ∧ (-10 : Int) < 0 - 7) ∧
    DateRangeValidator.validate 0 (some (-10)) (some 0) =
      (false, "Date range cannot exceed 5 days", none) ∧
    BackendWeatherService.validate_date_range 0 (some (-10)) (some 0) =
      .error "Date validation error: Start date cannot be more than 7 days in the past" := by
  refine ⟨⟨by omega, by omega, by omega⟩, ?_, ?_⟩
  · exact (dateRange_span_check_order 0 (-10) 0 (by omega) (by omega)).1
  · exact (dateRange_span_check_order 0 (-10) 0 (by omega) (by omega)).2 (by omega)

/-- C1 counterexample: at today = 0 with start = -10 and end = 0 (both dates
parse, start ≤ end, span = 10 > 5 days, and start is also before the
7-days-past bound), the backend WeatherService.validate_date_range reports
the past-bound message, not the 5-day-limit message, refuting the claim that
the span check always fires first in date-range validation. -/
theorem dateRange_span_check_order_counterexample :
    ((-10 : Int) ≤ 0 ∧ (0 : Int) - (-10) > 5) ∧
    BackendWeatherService.validate_date_range 0 (some (-10)) (some 0) =
      .error "Date validation error: Start date cannot be more than 7 days in the past" ∧
    BackendWeatherService.validate_date_range 0 (some (-10)) (some 0) ≠
      .error "Date validation error: Date range cannot exceed 5 days" := by
  refine ⟨⟨by omega, by omega⟩, by rfl, ?_⟩
  intro h
  have : "Date validation error: Start date cannot be more than 7 days in the past" =
      "Date validation error: Date range cannot exceed 5 days" := by
    have h' : BackendWeatherService.validate_date_range 0 (some (-10)) (some 0) =
        .error "Date validation error: Start date cannot be more than 7 days in the past" := by rfl
    exact Except.error.inj (h'.symm.trans h)
  simp at this

/-! ## Claim C8 -/

/-- C8: wait_if_needed completes no earlier than one full interval after the
last recorded call time and stamps the completion time as the new last call
time; at rpm = 60 two sequential calls therefore complete at least 1 second
(in particular at least 0.95 seconds) apart. -/
theorem rateLimiter_spacing :
    (∀ (rl : RateLimiter) (t slack : ℚ), 0 ≤ slack →
      rl.last_request_time + rl.time_between_requests ≤ (rl.wait_if_needed t slack).1 ∧
      ((rl.wait_if_needed t slack).2).last_request_time = (rl.wait_if_needed t slack).1) ∧
    (∀ (t₁ s₁ t₂ s₂ : ℚ), 0 ≤ s₁ → 0 ≤ s₂ →
      ((RateLimiter.init 60).wait_if_needed t₁ s₁).1 ≤ t₂ →
      1 ≤ ((((RateLimiter.init 60).wait_if_needed t₁ s₁).2).wait_if_needed t₂ s₂).1 -
            ((RateLimiter.init 60).wait_if_needed t₁ s₁).1 ∧
      (95 : ℚ)/100 ≤ ((((RateLimiter.init 60).wait_if_needed t₁ s₁).2).wait_if_needed t₂ s₂).1 -
            ((RateLimiter.init 60).wait_if_needed t₁ s₁).1) := by
  constructor
  · intro rl t slack hs
    simp only [RateLimiter.wait_if_needed]
    constructor
    · split <;> linarith
    · trivial
  · intro t₁ s₁ t₂ s₂ h₁ h₂ _
    have hgap : 1 ≤ ((((RateLimiter.init 60).wait_if_needed t₁ s₁).2).wait_if_needed t₂ s₂).1 -
        ((RateLimiter.init 60).wait_if_needed t₁ s₁).1 := by
      simp only [RateLimiter.wait_if_needed, RateLimiter.init]
      norm_num
      split <;> split <;> linarith
    exact ⟨hgap, by linarith⟩

/-- Witness for rateLimiter_spacing: the general spacing fact at a concrete
limiter state and the two-call gap at rpm = 60 with entry times 5 and 6. -/
theorem rateLimiter_spacing_witness :
    ((0 : ℚ) ≤ 0 ∧ ((RateLimiter.init 60).wait_if_needed 5 0).1 ≤ 6) ∧
    ((RateLimiter.init 60).last_request_time + (RateLimiter.init 60).time_between_requests ≤
      ((RateLimiter.init 60).wait_if_needed 100 0).1) ∧
    (1 ≤ ((((RateLimiter.init 60).wait_if_needed 5 0).2).wait_if_needed 6 0).1 -
          ((RateLimiter.init 60).wait_if_needed 5 0).1) := by
  refine ⟨⟨le_refl 0, ?_⟩, ?_, ?_⟩
  · norm_num [RateLimiter.wait_if_needed, RateLimiter.init]
  · exact (rateLimiter_spacing.1 (RateLimiter.init 60) 100 0 (le_refl 0)).1
  · exact (rateLimiter_spacing.2 5 0 6 0 (le_refl 0) (le_refl 0)
      (by norm_num [RateLimiter.wait_if_needed, RateLimiter.init])).1

/-! ## Claim C10 -/

/-- C10: update_query touches only the rows whose id matches: every other row
is returned unchanged at its position; a matching row keeps its id, location,
location_type, date range and created_at, receives updated_at = now, and its
temperature and weather_conditions follow COALESCE semantics (a none argument
preserves the prior value); the returned boolean is true exactly when a row
with the given id exists. -/
theorem update_query_frame (rows : List WeatherQueryRow) (id : Int)
    (temperature : Option ℚ) (weather_conditions : Option String) (now : Int) :
    (update_query rows id temperature weather_conditions now).1.length = rows.length ∧
    (∀ i r, rows.get? i = some r → r.id ≠ id →
      (update_query rows id temperature weather_conditions now).1.get? i = some r) ∧
    (∀ i r, rows.get? i = some r → r.id = id →
      (update_query rows id temperature weather_conditions now).1.get? i = some
        { id := r.id
          location := r.location
          location_type := r.location_type
          date_range_start := r.date_range_start
          date_range_end := r.date_range_end
          temperature := match temperature with
            | some v => some v
            | none => r.temperature
          weather_conditions := match weather_conditions with
            | some v => some v
            | none => r.weather_conditions
          created_at := r.created_at
          updated_at := now }) ∧
    ((update_query rows id temperature weather_conditions now).2 = true ↔
      ∃ r ∈ rows, r.id = id) := by
  have hmap := updateScan_fst_eq_map rows id temperature weather_conditions now
  have hfst : (update_query rows id temperature weather_conditions now).1 =
      (updateScan rows id temperature weather_conditions now).1 := rfl
  refine ⟨?_, ?_, ?_, ?_⟩
  · rw [hfst, hmap, List.length_map]
  · intro i r hr hne
    rw [hfst, hmap, List.get?_map, hr]
    simp [hne]
  · intro i r hr heq
    rw [hfst, hmap, List.get?_map, hr]
    simp only [Option.map_some']
    rw [if_pos heq]
    rfl
  · have hsnd : (update_query rows id temperature weather_conditions now).2 =
        decide ((updateScan rows id temperature weather_conditions now).2 > 0) := rfl
    rw [hsnd]
    simp only [decide_eq_true_eq]
    exact updateScan_snd_pos_iff rows id temperature weather_conditions now

/-- A sample row used by witnesses. -/
def sampleRow1 : WeatherQueryRow :=
  { id := 1, location := "10001", location_type := "zip"
    date_range_start := 0, date_range_end := 2
    temperature := some 20, weather_conditions := some "clear sky"
    created_at := 50, updated_at := 50 }

/-- A second sample row used by witnesses. -/
def sampleRow2 : WeatherQueryRow :=
  { id := 2, location := "Paris, France", location_type := "city"
    date_range_start := 1, date_range_end := 3
    temperature := none, weather_conditions := none
    created_at := 60, updated_at := 60 }

/-- Witness for update_query_frame: updating row id 1 of a two-row table with
a new temperature and no conditions leaves row id 2 unchanged, applies
COALESCE to row id 1, and reports success. -/
theorem update_query_frame_witness :
    (update_query [sampleRow1, sampleRow2] 1 (some 25) none 99).1.get? 1 =
      some sampleRow2 ∧
    (update_query [sampleRow1, sampleRow2] 1 (some 25) none 99).1.get? 0 =
      some
        { id := sampleRow1.id
          location := sampleRow1.location
          location_type := sampleRow1.location_type
          date_range_start := sampleRow1.date_range_start
          date_range_end := sampleRow1.date_range_end
          temperature := some 25
          weather_conditions := sampleRow1.weather_conditions
          created_at := sampleRow1.created_at
          updated_at := 99 } ∧
    (update_query [sampleRow1, sampleRow2] 1 (some 25) none 99).2 = true := by
  refine ⟨?_, ?_, ?_⟩
  · exact (update_query_frame [sampleRow1, sampleRow2] 1 (some 25) none 99).2.1
      1 sampleRow2 rfl (by decide)
  · exact (update_query_frame [sampleRow1, sampleRow2] 1 (some 25) none 99).2.2.1
      0 sampleRow1 rfl rfl
  · exact (update_query_frame [sampleRow1, sampleRow2] 1 (some 25) none 99).2.2.2.mpr
      ⟨sampleRow1, by simp, rfl⟩

/-! ## Geocoding (backend/weather_service.py and src/core/weather_service.py) -/

/-- One candidate object of a geocoding response. -/
structure GeoItem where
  lat : ℚ
  lon : ℚ
  geo_name : Option String
deriving Repr, DecidableEq

/-- The JSON body of a geocoding response as inspected by the backend
_get_coordinates: either an array of candidates (the /direct endpoint) or a
single object (the /zip endpoint), which may or may not carry a lat key. -/
inductive GeoJson where
  | jlist : List GeoItem → GeoJson
  | jobj : Option (ℚ × ℚ) → GeoJson
deriving Repr, DecidableEq

/-- Python exception classes relevant to the geocoding paths. -/
inductive PyError where
  | valueError : String → PyError
  | genericError : String → PyError
  | connectionError : String → PyError
deriving Repr, DecidableEq

namespace BackendWeatherService

/-- Embedding of WeatherService._get_coordinates (backend/weather_service.py)
for the geocoding paths.  `response` is the transport outcome of the
geocoding GET: error = requests.RequestException (including the
raise_for_status of a non-2xx reply), ok = the parsed JSON body.  The
type = coordinates branch parses floats out of the location string and makes
no network call; it is supplied as `coordsBranch` because every claim about
this function concerns the other location types. -/
def get_coordinates (coordsBranch : Except PyError (ℚ × ℚ)) (location : String)
    (location_type : String) (response : Except String GeoJson) :
    Except PyError (ℚ × ℚ) :=
  if location_type = "coordinates" then coordsBranch
  else
    match response with
    | .error msg => .error (.genericError ("Error fetching coordinates: " ++ msg))
    | .ok (.jlist (item :: _)) => .ok (item.lat, item.lon)
    | .ok (.jlist []) => .error (.valueError ("Location not found: " ++ location))
    | .ok (.jobj (some (lat, lon))) => .ok (lat, lon)
    | .ok (.jobj none) => .error (.valueError ("Location not found: " ++ location))

end BackendWeatherService

namespace CoreWeatherService

set_option linter.unusedVariables false in
/-- Embedding of WeatherService.geocode_location
(src/core/weather_service.py).  The /geo/1.0/direct response body is a JSON
array; connectionError models the ConnectionError raised on
RequestException.  The location-history insert performed on success does not
affect the returned value and is omitted here. -/
def geocode_location (location : String)
    (response : Except String (List GeoItem)) :
    Except PyError (Option (ℚ × ℚ)) :=
  match response with
  | .error msg =>
    .error (.connectionError ("Failed to geocode location: " ++ msg))
  | .ok (item :: _) => .ok (some (item.lat, item.lon))
  | .ok [] => .ok none

end CoreWeatherService

/-! ## Claim C5 -/

/-- C5 (amended): the backend _get_coordinates fails with a ValueError
(LocationNotFound-style) when the geocoding response is an empty array or an
object without coordinates, and with a wrapped generic error when the
transport call errors; the core geocode_location raises ConnectionError
(UpstreamError-style) on transport errors but, contrary to the claim,
returns None rather than an error when the response is empty. -/
theorem geocoding_failure_modes (coordsBranch : Except PyError (ℚ × ℚ))
    (location location_type : String) (msg : String)
    (hne : location_type ≠ "coordinates") :
    BackendWeatherService.get_coordinates coordsBranch location location_type
        (.ok (.jlist [])) =
      .error (.valueError ("Location not found: " ++ location)) ∧
    BackendWeatherService.get_coordinates coordsBranch location location_type
        (.ok (.jobj none)) =
      .error (.valueError ("Location not found: " ++ location)) ∧
    BackendWeatherService.get_coordinates coordsBranch location location_type
        (.error msg) =
      .error (.genericError ("Error fetching coordinates: " ++ msg)) ∧
    CoreWeatherService.geocode_location location (.error msg) =
      .error (.connectionError ("Failed to geocode location: " ++ msg)) ∧
    CoreWeatherService.geocode_location location (.ok []) = .ok none := by
  refine ⟨?_, ?_, ?_, rfl, rfl⟩ <;>
    simp [BackendWeatherService.get_coordinates, hne]

/-- Witness for geocoding_failure_modes at a zip-type location. -/
theorem geocoding_failure_modes_witness :
    ("zip" : String) ≠ "coordinates" ∧
    BackendWeatherService.get_coordinates (.error (.valueError "unused"))
        "10001" "zip" (.ok (.jlist [])) =
      .error (.valueError "Location not found: 10001") := by
  refine ⟨by decide, ?_⟩
  exact (geocoding_failure_modes (.error (.valueError "unused")) "10001" "zip"
    "timeout" (by decide)).1

/-- C5 counterexample: on an empty geocoding response the core
geocode_location returns a None result instead of failing with a
LocationNotFound-style error. -/
theorem geocode_location_empty_returns_none :
    CoreWeatherService.geocode_location "Atlantis" (.ok []) = .ok none := rfl

/-! ## Forecast aggregation (both WeatherService variants) -/

/-- One entry of the list field of a forecast response.  `dt_date` is the
calendar date of datetime.fromtimestamp(item.dt); since samples arrive
ordered by dt, consecutive samples of one day carry one date.  `pop` is the
precipitation probability; none models an absent pop key
(item.get("pop", 0)). -/
structure ForecastItem where
  dt_date : Int
  temp : ℚ
  description : String
  icon : String
  pop : Option ℚ
deriving Repr, DecidableEq

/-- Python min() over a nonempty list (folds min over the tail; Python
raises on an empty list, which the aggregation never passes). -/
def pyMin (l : List ℚ) : ℚ :=
  match l with
  | [] => 0
  | x :: xs => xs.foldl min x

/-- Python max() over a nonempty list. -/
def pyMax (l : List ℚ) : ℚ :=
  match l with
  | [] => 0
  | x :: xs => xs.foldl max x

/-- Python sum(). -/
def pySum (l : List ℚ) : ℚ := l.foldl (· + ·) 0

/-- Python round to an integer: round-half-even. -/
def roundHalfEven (q : ℚ) : ℤ :=
  if q - ⌊q⌋ < 1/2 then ⌊q⌋
  else if 1/2 < q - ⌊q⌋ then ⌊q⌋ + 1
  else if Even ⌊q⌋ then ⌊q⌋ else ⌊q⌋ + 1

/-- Python round(x, 2). -/
def pyRound2 (q : ℚ) : ℚ := roundHalfEven (q * 100) / 100

/-- One entry of the daily_forecasts list built by the backend get_forecast. -/
structure DailySummary where
  date : Int
  average_temp : ℚ
  min_temp : ℚ
  max_temp : ℚ
deriving Repr, DecidableEq

/-- The daily summary dictionary appended by the backend get_forecast for a
finished run of same-date samples. -/
def mkDailySummary (date : Int) (temps : List ℚ) : DailySummary :=
  { date := date
    average_temp := pyRound2 (pySum temps / temps.length)
    min_temp := pyMin temps
    max_temp := pyMax temps }

namespace BackendWeatherService

/-- The grouping loop of WeatherService.get_forecast
(backend/weather_service.py): state is (current_date, daily_temps,
daily_forecasts); after the loop the last day is appended when it has data. -/
def forecast_loop : List ForecastItem → Option Int → List ℚ → List DailySummary →
    List DailySummary
  | [], current_date, daily_temps, acc =>
    match current_date, daily_temps with
    | some d, t :: ts => acc ++ [mkDailySummary d (t :: ts)]
    | _, _ => acc
  | item :: rest, current_date, daily_temps, acc =>
    let cd := current_date.getD item.dt_date
    if item.dt_date ≠ cd then
      forecast_loop rest (some item.dt_date) [item.temp]
        (acc ++ [mkDailySummary cd daily_temps])
    else
      forecast_loop rest (some cd) (daily_temps ++ [item.temp]) acc

/-- Embedding of the aggregation of WeatherService.get_forecast
(backend/weather_service.py): the transformation from the list field of the
forecast response to daily_forecasts.  Note: this variant truncates nothing;
it emits one entry per contiguous same-date run. -/
def get_forecast (items : List ForecastItem) : List DailySummary :=
  forecast_loop items none [] []

end BackendWeatherService

namespace CoreWeatherService

/-- One ForecastData record of src/core/weather_service.py. -/
structure ForecastData where
  date : Int
  temp_min : ℚ
  temp_max : ℚ
  condition : String
  icon : String
  precipitation_prob : ℚ
deriving Repr, DecidableEq

/-- Python == between a forecast item (a dict) and a (description, icon)
pair (a tuple) is always False, whatever the contents. -/
def itemEqPair (_item : ForecastItem) (_x : String × String) : Bool := false

/-- Embedding of items.count(x) as written in get_forecast: it counts the
elements of `items` — the raw sample dicts — that compare equal under
Python == to the tuple `x`, which is never. -/
def itemsCount (items : List ForecastItem) (x : String × String) : Nat :=
  (items.filter (fun s => itemEqPair s x)).length

/-- Python max(xs, key=k): scans left to right and replaces the current best
only on a strictly greater key, so the first element of maximal key wins. -/
def pyMaxByKey (k : String × String → Nat) :
    List (String × String) → Option (String × String)
  | [] => none
  | x :: xs => some (xs.foldl (fun best y => if k y > k best then y else best) x)

/-- Inserting one item into the insertion-ordered date groups (Python dict
semantics: a new date is appended at the end, an existing date accumulates). -/
def insertByDate (groups : List (Int × List ForecastItem))
    (item : ForecastItem) : List (Int × List ForecastItem) :=
  match groups with
  | [] => [(item.dt_date, [item])]
  | (d, grp) :: rest =>
    if item.dt_date = d then (d, grp ++ [item]) :: rest
    else (d, grp) :: insertByDate rest item

/-- The daily_forecasts dict of get_forecast (src/core/weather_service.py):
items grouped by their date string, keys in first-seen order. -/
def groupByDate (items : List ForecastItem) : List (Int × List ForecastItem) :=
  items.foldl insertByDate []

/-- The per-date ForecastData built in the loop of get_forecast
(src/core/weather_service.py), including the most_common_weather selection
via max(..., key=lambda x: items.count(x)). -/
def dailyForecast (d : Int) (items : List ForecastItem) : ForecastData :=
  let temps := items.map (·.temp)
  let most_common_weather :=
    (pyMaxByKey (itemsCount items)
      (items.map (fun s => (s.description, s.icon)))).getD ("", "")
  { date := d
    temp_min := pyMin temps
    temp_max := pyMax temps
    condition := most_common_weather.1
    icon := most_common_weather.2
    precipitation_prob := pyMax (items.map (fun s => s.pop.getD 0)) }

/-- Embedding of the aggregation of WeatherService.get_forecast
(src/core/weather_service.py): group by calendar date, keep the first 5
dates, summarize each.  The database writes do not affect the returned list
and are omitted. -/
def get_forecast (items : List ForecastItem) : List ForecastData :=
  ((groupByDate items).take 5).map (fun g => dailyForecast g.1 g.2)

end CoreWeatherService

/-! ## Claim C2 -/

/-- A forecast day whose first sample carries a different (description, icon)
pair than the majority: rain once, then clear sky twice. -/
def mixedConditionDay : List ForecastItem :=
  [{ dt_date := 0, temp := 20, description := "rain", icon := "10d", pop := none },
   { dt_date := 0, temp := 21, description := "clear sky", icon := "01d", pop := none },
   { dt_date := 0, temp := 22, description := "clear sky", icon := "01d", pop := none }]

/-- C2 (code bug): because items.count(x) compares the raw sample dicts with
a (description, icon) tuple, every count is 0 and max returns the first
pair; on a day with one rain sample followed by two clear-sky samples the
summary carries (rain, 10d), though (clear sky, 01d) occurs twice and
(rain, 10d) once, so the reported condition is not the most frequent pair. -/
theorem dominant_condition_not_most_frequent :
    (CoreWeatherService.get_forecast mixedConditionDay).map
        (fun f => (f.condition, f.icon)) = [("rain", "10d")] ∧
    (mixedConditionDay.map (fun s => (s.description, s.icon))).count
        ("clear sky", "01d") = 2 ∧
    (mixedConditionDay.map (fun s => (s.description, s.icon))).count
        ("rain", "10d") = 1 := by
  refine ⟨rfl, rfl, rfl⟩

/-! ## Claim C4 -/

/-- Six forecast samples on six consecutive calendar dates. -/
def sixDateSamples : List ForecastItem :=
  [{ dt_date := 0, temp := 10, description := "clear sky", icon := "01d", pop := none },
   { dt_date := 1, temp := 11, description := "clear sky", icon := "01d", pop := none },
   { dt_date := 2, temp := 12, description := "clear sky", icon := "01d", pop := none },
   { dt_date := 3, temp := 13, description := "clear sky", icon := "01d", pop := none },
   { dt_date := 4, temp := 14, description := "clear sky", icon := "01d", pop := none },
   { dt_date := 5, temp := 15, description := "clear sky", icon := "01d", pop := none }]

/-- C4 (amended): the core get_forecast truncates its output to at most 5
daily entries for every input, but the backend get_forecast performs no
truncation: on samples spanning 6 calendar dates it returns 6 entries. -/
theorem forecast_truncation :
    (∀ items : List ForecastItem,
      (CoreWeatherService.get_forecast items).length ≤ 5) ∧
    (BackendWeatherService.get_forecast sixDateSamples).length = 6 := by
  constructor
  · intro items
    simp only [CoreWeatherService.get_forecast, List.length_map, List.length_take]
    exact min_le_left _ _
  · rfl

/-- C4 counterexample: the backend get_forecast returns 6 daily entries on
samples spanning 6 calendar dates, refuting the claim that forecast
aggregation always returns at most 5 entries. -/
theorem backend_forecast_no_truncation :
    (BackendWeatherService.get_forecast sixDateSamples).length = 6 := rfl

/-! ## Claim C3: helper lemmas -/

theorem forecast_loop_run (d : Int) :
    ∀ (xs : List ForecastItem), (∀ s ∈ xs, s.dt_date = d) →
    ∀ (rest : List ForecastItem) (temps : List ℚ) (acc : List DailySummary),
      BackendWeatherService.forecast_loop (xs ++ rest) (some d) temps acc =
        BackendWeatherService.forecast_loop rest (some d)
          (temps ++ xs.map (·.temp)) acc := by
  intro xs
  induction xs with
  | nil =>
    intro _ rest temps acc
    simp
  | cons x xs ih =>
    intro h rest temps acc
    have hx : x.dt_date = d := h x (List.mem_cons_self x xs)
    simp only [List.cons_append, BackendWeatherService.forecast_loop,
      Option.getD_some, List.append_eq]
    rw [if_neg (by simp [hx])]
    rw [ih (fun s hs => h s (List.mem_cons_of_mem x hs)) rest (temps ++ [x.temp]) acc]
    simp

theorem forecast_loop_run_nil (d : Int) (xs : List ForecastItem)
    (h : ∀ s ∈ xs, s.dt_date = d) (temps : List ℚ) (acc : List DailySummary) :
    BackendWeatherService.forecast_loop xs (some d) temps acc =
      BackendWeatherService.forecast_loop [] (some d)
        (temps ++ xs.map (·.temp)) acc := by
  have := forecast_loop_run d xs h [] temps acc
  simpa using this

theorem insertByDate_new (item : ForecastItem) :
    ∀ groups : List (Int × List ForecastItem),
      (∀ g ∈ groups, g.1 ≠ item.dt_date) →
      CoreWeatherService.insertByDate groups item =
        groups ++ [(item.dt_date, [item])] := by
  intro groups
  induction groups with
  | nil => intro _; rfl
  | cons g rest ih =>
    intro h
    obtain ⟨d, grp⟩ := g
    have hd : d ≠ item.dt_date := h (d, grp) (List.mem_cons_self _ _)
    simp only [CoreWeatherService.insertByDate]
    rw [if_neg (fun hh => hd hh.symm)]
    rw [ih (fun g hg => h g (List.mem_cons_of_mem _ hg))]
    simp

theorem insertByDate_existing (item : ForecastItem) (d : Int)
    (grp : List ForecastItem) (hitem : item.dt_date = d) :
    ∀ (pre : List (Int × List ForecastItem)), (∀ g ∈ pre, g.1 ≠ d) →
    ∀ suf : List (Int × List ForecastItem),
      CoreWeatherService.insertByDate (pre ++ (d, grp) :: suf) item =
        pre ++ (d, grp ++ [item]) :: suf := by
  intro pre
  induction pre with
  | nil =>
    intro _ suf
    simp only [List.nil_append, CoreWeatherService.insertByDate]
    rw [if_pos hitem]
  | cons g rest ih =>
    intro h suf
    obtain ⟨d', grp'⟩ := g
    have hd : d' ≠ d := h (d', grp') (List.mem_cons_self _ _)
    simp only [List.cons_append, CoreWeatherService.insertByDate,
      List.append_eq]
    rw [if_neg (by rw [hitem]; exact fun hh => hd hh.symm)]
    rw [ih (fun g hg => h g (List.mem_cons_of_mem _ hg)) suf]

theorem groupByDate_run (d : Int) :
    ∀ (xs : List ForecastItem), (∀ s ∈ xs, s.dt_date = d) →
    ∀ (pre : List (Int × List ForecastItem)) (grp : List ForecastItem),
      (∀ g ∈ pre, g.1 ≠ d) →
      List.foldl CoreWeatherService.insertByDate (pre ++ [(d, grp)]) xs =
        pre ++ [(d, grp ++ xs)] := by
  intro xs
  induction xs with
  | nil =>
    intro _ pre grp _
    simp
  | cons x xs ih =>
    intro h pre grp hpre
    simp only [List.foldl_cons]
    rw [insertByDate_existing x d grp (h x (List.mem_cons_self _ _)) pre hpre []]
    rw [ih (fun s hs => h s (List.mem_cons_of_mem _ hs)) pre (grp ++ [x]) hpre]
    simp

/-! ## Claim C3 -/

/-- C3: on a sample sequence consisting of 8 samples of one calendar date
followed by 8 samples of a second, distinct calendar date (all temperatures
distinct), both forecast aggregations return exactly 2 daily entries, and
each entry carries the minimum and maximum temperature of the samples of its
date. -/
theorem aggregate_two_full_days (d1 d2 : Int) (xs ys : List ForecastItem)
    (hxlen : xs.length = 8) (hylen : ys.length = 8)
    (hxd : ∀ s ∈ xs, s.dt_date = d1) (hyd : ∀ s ∈ ys, s.dt_date = d2)
    (hne : d1 ≠ d2)
    (_hdistinct : ((xs ++ ys).map (·.temp)).Nodup) :
    (BackendWeatherService.get_forecast (xs ++ ys)).length = 2 ∧
    (CoreWeatherService.get_forecast (xs ++ ys)).length = 2 ∧
    (BackendWeatherService.get_forecast (xs ++ ys)).map
        (fun e => (e.date, some e.min_temp, some e.max_temp)) =
      [(d1, (xs.map (·.temp)).minimum?, (xs.map (·.temp)).maximum?),
       (d2, (ys.map (·.temp)).minimum?, (ys.map (·.temp)).maximum?)] ∧
    (CoreWeatherService.get_forecast (xs ++ ys)).map
        (fun e => (e.date, some e.temp_min, some e.temp_max)) =
      [(d1, (xs.map (·.temp)).minimum?, (xs.map (·.temp)).maximum?),
       (d2, (ys.map (·.temp)).minimum?, (ys.map (·.temp)).maximum?)] := by
  obtain ⟨x, xs', rfl⟩ : ∃ x xs', xs = x :: xs' := by
    cases xs with
    | nil => simp at hxlen
    | cons x xs' => exact ⟨x, xs', rfl⟩
  obtain ⟨y, ys', rfl⟩ : ∃ y ys', ys = y :: ys' := by
    cases ys with
    | nil => simp at hylen
    | cons y ys' => exact ⟨y, ys', rfl⟩
  have hx : x.dt_date = d1 := hxd x (List.mem_cons_self _ _)
  have hy : y.dt_date = d2 := hyd y (List.mem_cons_self _ _)
  have hxd' : ∀ s ∈ xs', s.dt_date = d1 :=
    fun s hs => hxd s (List.mem_cons_of_mem _ hs)
  have hyd' : ∀ s ∈ ys', s.dt_date = d2 :=
    fun s hs => hyd s (List.mem_cons_of_mem _ hs)
  have backend_eq : BackendWeatherService.get_forecast ((x :: xs') ++ (y :: ys')) =
      [mkDailySummary d1 ((x :: xs').map (·.temp)),
       mkDailySummary d2 ((y :: ys').map (·.temp))] := by
    show BackendWeatherService.forecast_loop ((x :: xs') ++ (y :: ys')) none [] [] = _
    simp only [List.cons_append, BackendWeatherService.forecast_loop,
      Option.getD_none, List.append_eq]
    rw [if_neg (by simp), hx]
    rw [forecast_loop_run d1 xs' hxd']
    simp only [BackendWeatherService.forecast_loop, Option.getD_some]
    rw [if_pos (by rw [hy]; exact hne.symm), hy]
    rw [forecast_loop_run_nil d2 ys' hyd']
    simp only [BackendWeatherService.forecast_loop]
    simp
  have core_groups : CoreWeatherService.groupByDate ((x :: xs') ++ (y :: ys')) =
      [(d1, x :: xs'), (d2, y :: ys')] := by
    show List.foldl CoreWeatherService.insertByDate [] ((x :: xs') ++ (y :: ys')) = _
    rw [List.foldl_append]
    have h1 : List.foldl CoreWeatherService.insertByDate [] (x :: xs') =
        [(d1, x :: xs')] := by
      simp only [List.foldl_cons]
      have hins : CoreWeatherService.insertByDate [] x = [(x.dt_date, [x])] := rfl
      rw [hins, hx]
      have := groupByDate_run d1 xs' hxd' [] [x] (by simp)
      simpa using this
    rw [h1]
    simp only [List.foldl_cons]
    rw [insertByDate_new y [(d1, x :: xs')] (by simp [hy]; exact hne)]
    rw [hy]
    have := groupByDate_run d2 ys' hyd' [(d1, x :: xs')] [y] (by simp; exact hne)
    simpa using this
  have core_eq : CoreWeatherService.get_forecast ((x :: xs') ++ (y :: ys')) =
      [CoreWeatherService.dailyForecast d1 (x :: xs'),
       CoreWeatherService.dailyForecast d2 (y :: ys')] := by
    show ((CoreWeatherService.groupByDate _).take 5).map _ = _
    rw [core_groups]
    rfl
  refine ⟨by rw [backend_eq]; rfl, by rw [core_eq]; rfl, ?_, ?_⟩
  · rw [backend_eq]
    rfl
  · rw [core_eq]
    rfl

/-- Eight 3-hour samples on calendar date 100 with distinct temperatures. -/
def dayOneSamples : List ForecastItem :=
  [{ dt_date := 100, temp := 3, description := "clear sky", icon := "01d", pop := some 0 },
   { dt_date := 100, temp := 1, description := "clear sky", icon := "01d", pop := some 0 },
   { dt_date := 100, temp := 4, description := "clear sky", icon := "01d", pop := some 0 },
   { dt_date := 100, temp := 7, description := "few clouds", icon := "02d", pop := some 0 },
   { dt_date := 100, temp := 8, description := "few clouds", icon := "02d", pop := some 0 },
   { dt_date := 100, temp := 6, description := "clear sky", icon := "01d", pop := some 0 },
   { dt_date := 100, temp := 5, description := "clear sky", icon := "01d", pop := some 0 },
   { dt_date := 100, temp := 2, description := "clear sky", icon := "01d", pop := some 0 }]

/-- Eight 3-hour samples on calendar date 101 with distinct temperatures. -/
def dayTwoSamples : List ForecastItem :=
  [{ dt_date := 101, temp := 13, description := "rain", icon := "10d", pop := some 1 },
   { dt_date := 101, temp := 11, description := "rain", icon := "10d", pop := some 1 },
   { dt_date := 101, temp := 14, description := "rain", icon := "10d", pop := some 1 },
   { dt_date := 101, temp := 17, description := "rain", icon := "10d", pop := some 1 },
   { dt_date := 101, temp := 18, description := "rain", icon := "10d", pop := some 1 },
   { dt_date := 101, temp := 16, description := "rain", icon := "10d", pop := some 1 },
   { dt_date := 101, temp := 15, description := "rain", icon := "10d", pop := some 1 },
   { dt_date := 101, temp := 12, description := "rain", icon := "10d", pop := some 1 }]

/-- Witness for aggregate_two_full_days on two concrete full days of 8
samples each. -/
theorem aggregate_two_full_days_witness :
    (dayOneSamples.length = 8 ∧ dayTwoSamples.length = 8 ∧
     (∀ s ∈ dayOneSamples, s.dt_date = 100) ∧
     (∀ s ∈ dayTwoSamples, s.dt_date = 101) ∧
     (100 : Int) ≠ 101 ∧
     ((dayOneSamples ++ dayTwoSamples).map (·.temp)).Nodup) ∧
    (BackendWeatherService.get_forecast (dayOneSamples ++ dayTwoSamples)).length = 2 ∧
    (CoreWeatherService.get_forecast (dayOneSamples ++ dayTwoSamples)).length = 2 := by
  have h := aggregate_two_full_days 100 101 dayOneSamples dayTwoSamples rfl rfl
    (by decide) (by decide) (by decide) (by decide)
  exact ⟨⟨rfl, rfl, by decide, by decide, by decide, by decide⟩, h.1, h.2.1⟩

/-! ## LocationValidator (backend/validators/location.py)

The regular expressions of the validator are embedded as deterministic
character-list matchers.  Each deterministic maximal-munch scan is
equivalent to the greedy backtracking regex because in every pattern the
character that must follow a quantified class is excluded from that class,
so the regex never benefits from giving characters back.  The dollar anchor
is modeled as end-of-string (the Python anchor also accepts one trailing
newline; no claim involves trailing newlines), and the backslash-w,
backslash-s classes and str.strip use their ASCII meaning. -/

namespace LocationValidator

/-- The characters of the regex class backslash-s (ASCII). -/
def isPySpace (c : Char) : Bool :=
  c = ' ' || c = '\t' || c = '\n' || c = '\r' || c = Char.ofNat 11 || c = Char.ofNat 12

/-- Python str.strip(). -/
def pyStrip (s : List Char) : List Char :=
  ((s.dropWhile isPySpace).reverse.dropWhile isPySpace).reverse

def isDigitC (c : Char) : Bool := c.isDigit

def isAlphaC (c : Char) : Bool :=
  ('A' ≤ c && c ≤ 'Z') || ('a' ≤ c && c ≤ 'z')

/-- The apostrophe character. -/
def apo : Char := Char.ofNat 39

/-- Matcher for the zip pattern: five digits with an optional dash and four
more digits. -/
def matchZip (s : List Char) : Bool :=
  let ds := s.takeWhile isDigitC
  let rest := s.dropWhile isDigitC
  decide (ds.length = 5) &&
    (rest.isEmpty ||
      (match rest with
       | '-' :: t => decide (t.length = 4) && t.all isDigitC
       | _ => false))

/-- Consume the unsigned part of one coordinate number (digits, optional dot
plus digits) from the front of the input; returns the remainder on
success. -/
def parseNumberBody (s : List Char) : Option (List Char) :=
  match s with
  | c :: t =>
    if isDigitC c then
      match t.dropWhile isDigitC with
      | '.' :: r2 =>
        match r2 with
        | d :: t2 => if isDigitC d then some (t2.dropWhile isDigitC) else some ('.' :: r2)
        | [] => some ('.' :: r2)
      | r => some r
    else none
  | [] => none

/-- Consume one coordinate number (optional minus, then the unsigned body)
from the front of the input; returns the remainder on success. -/
def parseNumber (s : List Char) : Option (List Char) :=
  match s with
  | '-' :: t => parseNumberBody t
  | _ => parseNumberBody s

/-- Matcher for the coordinates pattern: number, comma, optional spaces,
number. -/
def matchCoordinates (s : List Char) : Bool :=
  match parseNumber s with
  | some (',' :: r2) =>
    match parseNumber (r2.dropWhile isPySpace) with
    | some [] => true
    | _ => false
  | _ => false

def isAlphaSpace (c : Char) : Bool := isAlphaC c || isPySpace c

/-- Matcher for the City, Country pattern: two or more letters and spaces, a
comma, optional spaces, two or more letters. -/
def matchCity (s : List Char) : Bool :=
  let seg := s.takeWhile isAlphaSpace
  let rest := s.dropWhile isAlphaSpace
  decide (seg.length ≥ 2) &&
    (match rest with
     | ',' :: r2 =>
       let r3 := r2.dropWhile isPySpace
       decide (r3.length ≥ 2) && r3.all isAlphaC
     | _ => false)

/-- The character class of the landmark pattern: letters, digits, spaces,
dash, apostrophe, dot. -/
def isLandmarkChar (c : Char) : Bool :=
  isAlphaC c || isDigitC c || isPySpace c || c = '-' || c = apo || c = '.'

/-- Matcher for the landmark pattern: two or more landmark characters. -/
def matchLandmark (s : List Char) : Bool :=
  decide (s.length ≥ 2) && s.all isLandmarkChar

/-- The regex class backslash-w (ASCII). -/
def isWordChar (c : Char) : Bool := isAlphaC c || isDigitC c || c = '_'

/-- The characters tolerated by _is_reasonable_landmark. -/
def isReasonableChar (c : Char) : Bool :=
  isWordChar c || isPySpace c || c = '-' || c = apo || c = '.' || c = ',' ||
    c = ':' || c = '(' || c = ')'

/-- Python str.split() with no argument: split on whitespace runs, dropping
empty words. -/
def pySplit : List Char → List (List Char)
  | [] => []
  | c :: t =>
    if isPySpace c then pySplit t
    else (c :: t.takeWhile (fun x => !isPySpace x)) ::
      pySplit (t.dropWhile (fun x => !isPySpace x))
termination_by s => s.length
decreasing_by
  · simp_wf
  · simp_wf
    have := (List.dropWhile_sublist (fun x => !isPySpace x) (l := t)).length_le
    omega

/-- Embedding of LocationValidator._is_reasonable_landmark. -/
def is_reasonable_landmark (l : List Char) : Bool :=
  decide (l.length ≤ 100) && l.all isReasonableChar &&
    decide ((pySplit l).length ≤ 10)

/-- Embedding of LocationValidator.validate.  A non-string input cannot
arise in the typed model; the empty-string test models the falsiness check
on the input.  The patterns are tried in dict order: zip, coordinates,
city, landmark, then the landmark heuristic. -/
def validate (location : String) : Bool × String × Option String :=
  if location.data.isEmpty then
    (false, "Location must be a non-empty string", none)
  else
    let l := pyStrip location.data
    if l.length < 2 then
      (false, "Location must be at least 2 characters long", none)
    else if matchZip l then (true, "Valid location format", some "zip")
    else if matchCoordinates l then (true, "Valid location format", some "coordinates")
    else if matchCity l then (true, "Valid location format", some "city")
    else if matchLandmark l then (true, "Valid location format", some "landmark")
    else if is_reasonable_landmark l then
      (true, "Assumed landmark location", some "landmark")
    else (false, "Invalid location format", none)

end LocationValidator

/-! ## Claim C9 -/

/-- C9: LocationValidator.validate returns a location type drawn from
exactly zip, coordinates, city, landmark whenever it reports valid, and no
type at all whenever it reports invalid. -/
theorem validate_shape (location : String) :
    ((LocationValidator.validate location).1 = true →
      (LocationValidator.validate location).2.2 = some "zip" ∨
      (LocationValidator.validate location).2.2 = some "coordinates" ∨
      (LocationValidator.validate location).2.2 = some "city" ∨
      (LocationValidator.validate location).2.2 = some "landmark") ∧
    ((LocationValidator.validate location).1 = false →
      (LocationValidator.validate location).2.2 = none) := by
  unfold LocationValidator.validate
  dsimp only
  split_ifs <;> simp

/-- Witness for validate_shape on the zip-shaped input 10001. -/
theorem validate_shape_witness :
    (LocationValidator.validate "10001").1 = true ∧
    ((LocationValidator.validate "10001").2.2 = some "zip" ∨
     (LocationValidator.validate "10001").2.2 = some "coordinates" ∨
     (LocationValidator.validate "10001").2.2 = some "city" ∨
     (LocationValidator.validate "10001").2.2 = some "landmark") :=
  ⟨by decide, (validate_shape "10001").1 (by decide)⟩

/-! ## backend/main.py : create_weather_query -/

/-- Observable side effects of the create_weather_query handler. -/
inductive Effect where
  | networkCall
  | persist
deriving Repr, DecidableEq

/-- The JSON body of a POST /api/weather request.  The outer Option models
presence of the key (none = missing field); for the two date fields the
inner Option models the strptime outcome of the present value, matching the
DateRangeValidator embedding. -/
structure CreateRequest where
  location : Option String
  date_range_start : Option (Option Int)
  date_range_end : Option (Option Int)

/-- The observable outcome of the handler: a raised ValidationError, a
raised ExternalAPIError, or the 201 success envelope with the insert id. -/
inductive ApiResult where
  | validationError (message : String)
  | externalApiError (message service : String)
  | created (id : Option Int)
deriving Repr, DecidableEq

/-- Embedding of create_weather_query (backend/main.py).  `today` feeds the
date validator; `fetchWeather` is the outcome of
weather_service.get_current_weather (temperature and description on
success, error = any raised exception); `rows` is the weather_queries
table; `now` and `newId` supply the insert timestamp and autoincrement id.
Returns the handler outcome, the resulting table, and the ordered side
effects (network call, insert) performed.  The stored date columns hold the
parsed day numbers of the request values. -/
def create_weather_query (today : Int) (req : CreateRequest)
    (fetchWeather : Except String (ℚ × String)) (rows : List WeatherQueryRow)
    (now newId : Int) : ApiResult × List WeatherQueryRow × List Effect :=
  match req.location, req.date_range_start, req.date_range_end with
  | none, _, _ =>
    (.validationError "Missing required field: location", rows, [])
  | some _, none, _ =>
    (.validationError "Missing required field: date_range_start", rows, [])
  | some _, some _, none =>
    (.validationError "Missing required field: date_range_end", rows, [])
  | some loc, some ds, some de =>
    let locRes := LocationValidator.validate loc
    if locRes.1 = false then (.validationError locRes.2.1, rows, [])
    else
      let dateRes := DateRangeValidator.validate today ds de
      if dateRes.1 = false then (.validationError dateRes.2.1, rows, [])
      else
        match fetchWeather with
        | .error e => (.externalApiError e "OpenWeather", rows, [.networkCall])
        | .ok (temperature, description) =>
          let row : WeatherQueryRow :=
            { id := newId
              location := loc
              location_type := (locRes.2.2).getD ""
              date_range_start := ds.getD 0
              date_range_end := de.getD 0
              temperature := some temperature
              weather_conditions := some description
              created_at := now
              updated_at := now }
          (.created (some newId), rows ++ [row], [.networkCall, .persist])

/-! ## Claim C6 -/

/-- C6: when the location fails classification or the date range fails
validation, create_weather_query raises a ValidationError, performs no
network call and no insert, and leaves the store unchanged. -/
theorem create_weather_query_fail_fast (today : Int) (loc : String)
    (ds de : Option Int) (fetchWeather : Except String (ℚ × String))
    (rows : List WeatherQueryRow) (now newId : Int)
    (hfail : (LocationValidator.validate loc).1 = false ∨
      (DateRangeValidator.validate today ds de).1 = false) :
    (∃ m, (create_weather_query today ⟨some loc, some ds, some de⟩
      fetchWeather rows now newId).1 = .validationError m) ∧
    (create_weather_query today ⟨some loc, some ds, some de⟩
      fetchWeather rows now newId).2.1 = rows ∧
    (create_weather_query today ⟨some loc, some ds, some de⟩
      fetchWeather rows now newId).2.2 = [] := by
  unfold create_weather_query
  dsimp only
  by_cases hloc : (LocationValidator.validate loc).1 = false
  · rw [if_pos hloc]
    exact ⟨⟨(LocationValidator.validate loc).2.1, rfl⟩, rfl, rfl⟩
  · rw [if_neg hloc]
    have hdate : (DateRangeValidator.validate today ds de).1 = false := by
      rcases hfail with h | h
      · exact absurd h hloc
      · exact h
    rw [if_pos hdate]
    exact ⟨⟨(DateRangeValidator.validate today ds de).2.1, rfl⟩, rfl, rfl⟩

/-- Witness for create_weather_query_fail_fast: a one-character location is
rejected and the table is untouched. -/
theorem create_weather_query_fail_fast_witness :
    ((LocationValidator.validate "x").1 = false ∨
      (DateRangeValidator.validate 0 (some 0) (some 0)).1 = false) ∧
    (create_weather_query 0 ⟨some "x", some (some 0), some (some 0)⟩
      (.ok (20, "clear sky")) [sampleRow1] 7 2).2.1 = [sampleRow1] ∧
    (create_weather_query 0 ⟨some "x", some (some 0), some (some 0)⟩
      (.ok (20, "clear sky")) [sampleRow1] 7 2).2.2 = [] := by
  have h := create_weather_query_fail_fast 0 "x" (some 0) (some 0)
    (.ok (20, "clear sky")) [sampleRow1] 7 2 (Or.inl (by decide))
  exact ⟨Or.inl (by decide), h.2.1, h.2.2⟩

/-! ## LocationValidator.normalize_location (backend/validators/location.py)

The coordinates branch runs re.findall for the number pattern (optional
minus, digits, optional dot, digits), converts the two matches with float,
and reformats with six fraction digits.  The scanner below is the leftmost
maximal-munch reading of that findall: at a position it matches a maximal
token when one starts there and otherwise advances one character.  Python
floats are modeled as a sign plus an exact rational magnitude, so a parsed
token keeps its minus sign even at magnitude zero exactly as IEEE negative
zero does, and rounding to six places is round-half-even on the exact
value. -/

namespace LocationValidator

/-- Completion of one findall token once its first digit is seen: `pre` is
the consumed sign, `c` the first digit, `t` the rest of the input; returns
the full matched token and the remainder of the input. -/
def completeToken (pre : List Char) (c : Char) (t : List Char) :
    List Char × List Char :=
  match t.dropWhile isDigitC with
  | '.' :: r2 =>
    (pre ++ (c :: t.takeWhile isDigitC) ++ '.' :: r2.takeWhile isDigitC,
      r2.dropWhile isDigitC)
  | r => (pre ++ c :: t.takeWhile isDigitC, r)

theorem completeToken_rest_length (pre : List Char) (c : Char) (t : List Char) :
    (completeToken pre c t).2.length ≤ t.length := by
  unfold completeToken
  split
  · rename_i r2 heq
    have h1 : (List.dropWhile isDigitC r2).length ≤ r2.length :=
      (List.dropWhile_sublist (p := isDigitC) (l := r2)).length_le
    have h2 : (List.dropWhile isDigitC t).length ≤ t.length :=
      (List.dropWhile_sublist (p := isDigitC) (l := t)).length_le
    rw [heq] at h2
    simp only [List.length_cons] at h2
    simpa using Nat.le_trans h1 (by omega)
  · exact (List.dropWhile_sublist (p := isDigitC) (l := t)).length_le

set_option linter.unusedTactic false in
set_option linter.unreachableTactic false in
/-- Embedding of re.findall for the number pattern, returning the list of
matched substrings in order: at each position a maximal token is matched
when one starts there, and otherwise the scan advances one character. -/
def findNumbers : List Char → List (List Char)
  | [] => []
  | c :: t =>
    if isDigitC c then
      (completeToken [] c t).1 :: findNumbers (completeToken [] c t).2
    else if c = '-' then
      match t with
      | d :: t2 =>
        if isDigitC d then
          (completeToken ['-'] d t2).1 :: findNumbers (completeToken ['-'] d t2).2
        else findNumbers (d :: t2)
      | [] => []
    else findNumbers t
termination_by s => s.length
decreasing_by
  all_goals simp_wf
  all_goals try omega
  all_goals
    first
    | (have hct := completeToken_rest_length [] c t
       omega)
    | (have hct := completeToken_rest_length ['-'] d t2
       omega)

/-- Numeric value of a run of digit characters (most significant first). -/
def digitsValC (ds : List Char) : Nat :=
  ds.foldl (fun a c => 10 * a + (c.toNat - 48)) 0

/-- The fraction digits of an unsigned matched token: the digit run after
the dot that follows the integer run, if present. -/
def fracDigits (t : List Char) : List Char :=
  match t.dropWhile isDigitC with
  | '.' :: r => r.takeWhile isDigitC
  | _ => []

/-- Magnitude read by float() from an unsigned matched token: integer run,
then an optional dot and fraction run. -/
def parseTokenMag (t : List Char) : ℚ :=
  (digitsValC (t.takeWhile isDigitC) : ℚ) +
    (digitsValC (fracDigits t) : ℚ) / 10 ^ (fracDigits t).length

/-- float() of one matched token: sign flag and magnitude. -/
def parseToken (t : List Char) : Bool × ℚ :=
  match t with
  | '-' :: rest => (true, parseTokenMag rest)
  | _ => (false, parseTokenMag t)

/-- Little-endian decimal digits with explicit fuel, so that the kernel can
evaluate it on literals. -/
def natDigitsAux : Nat → Nat → List Nat
  | _, 0 => []
  | 0, _ + 1 => []
  | fuel + 1, n + 1 => (n + 1) % 10 :: natDigitsAux fuel ((n + 1) / 10)

/-- Most-significant-first decimal digits of n (empty for 0). -/
def natDigits (n : Nat) : List Nat := (natDigitsAux n n).reverse

def digitChar (d : Nat) : Char := Char.ofNat (48 + d)

/-- Decimal rendering of a natural number, as Python prints it. -/
def renderNat (n : Nat) : List Char :=
  if n = 0 then ['0'] else (natDigits n).map digitChar

/-- Exactly six fraction digits with leading zeros. -/
def renderFrac6 (n : Nat) : List Char :=
  List.replicate (6 - (natDigits n).length) '0' ++ (natDigits n).map digitChar

/-- The numerator over 10^6 printed by format .6f for magnitude mag ≥ 0. -/
def round6 (mag : ℚ) : Nat := (roundHalfEven (mag * 10 ^ 6)).toNat

/-- Python format .6f of a parsed token (sign, magnitude): the sign is
printed even when the magnitude rounds to zero, as IEEE negative zero is. -/
def format6 (neg : Bool) (mag : ℚ) : List Char :=
  (if neg then ['-'] else []) ++ renderNat (round6 mag / 10 ^ 6) ++
    '.' :: renderFrac6 (round6 mag % 10 ^ 6)

/-- Python str.capitalize() (ASCII). -/
def pyCapitalize (w : List Char) : List Char :=
  match w with
  | [] => []
  | c :: t => c.toUpper :: t.map Char.toLower

/-- Python str.title() (ASCII): a letter is uppercased when it follows a
non-letter and lowercased otherwise. -/
def pyTitleGo : Bool → List Char → List Char
  | _, [] => []
  | prevAlpha, c :: t =>
    (if prevAlpha then c.toLower else c.toUpper) :: pyTitleGo (isAlphaC c) t

def pyTitle (w : List Char) : List Char := pyTitleGo false w

/-- Python str.split on one separator character. -/
def splitOnComma : List Char → List (List Char)
  | [] => [[]]
  | c :: t =>
    if c = ',' then [] :: splitOnComma t
    else
      match splitOnComma t with
      | w :: ws => (c :: w) :: ws
      | [] => [[c]]

/-- Embedding of LocationValidator.normalize_location.  The coordinates
branch returns the stripped input unchanged when findall does not deliver
exactly two numbers (the ValueError path of the tuple unpacking). -/
def normalize_location (location : String) (location_type : String) : String :=
  let l := pyStrip location.data
  if location_type = "coordinates" then
    match findNumbers l with
    | [a, b] =>
      ⟨format6 (parseToken a).1 (parseToken a).2 ++
        ',' :: format6 (parseToken b).1 (parseToken b).2⟩
    | _ => ⟨l⟩
  else if location_type = "city" then
    ⟨List.intercalate [','] ((splitOnComma l).map (fun part => pyTitle (pyStrip part)))⟩
  else if location_type = "zip" then
    ⟨l.filter (fun c => c ≠ ' ')⟩
  else if location_type = "landmark" then
    ⟨List.intercalate [' ']
      ((pySplit l).map (fun w => if w.length > 3 then pyCapitalize w else w))⟩
  else ⟨l⟩

end LocationValidator

/-! ## Decimal numerals for the coordinate claims -/

/-- A decimal numeral: sign, integer digits (most significant first),
fraction digits; an empty fraction renders without a decimal point. -/
structure DecimalNum where
  neg : Bool
  intPart : List Nat
  fracPart : List Nat

/-- Well-formedness: at least one integer digit and every digit below 10. -/
def DecimalNum.wf (d : DecimalNum) : Prop :=
  d.intPart ≠ [] ∧ (∀ x ∈ d.intPart, x < 10) ∧ (∀ x ∈ d.fracPart, x < 10)

def renderDigits (ds : List Nat) : List Char := ds.map LocationValidator.digitChar

/-- The character string of the numeral. -/
def DecimalNum.render (d : DecimalNum) : List Char :=
  (if d.neg then ['-'] else []) ++ renderDigits d.intPart ++
    (if d.fracPart.isEmpty then [] else '.' :: renderDigits d.fracPart)

/-- Numeric value of a digit list (most significant first). -/
def digitsVal (ds : List Nat) : Nat := ds.foldl (fun a x => 10 * a + x) 0

/-- Magnitude of the numeral. -/
def DecimalNum.mag (d : DecimalNum) : ℚ :=
  (digitsVal d.intPart : ℚ) + (digitsVal d.fracPart : ℚ) / 10 ^ d.fracPart.length

/-- Signed value of the numeral. -/
def DecimalNum.val (d : DecimalNum) : ℚ := if d.neg then -d.mag else d.mag

/-- A location input of the form number, comma, space, number. -/
def coordInput (a b : DecimalNum) : String :=
  ⟨a.render ++ ',' :: ' ' :: b.render⟩

/-! ## Helper lemmas for the coordinate claims -/

namespace LocationValidator

theorem digitChar_props (d : Nat) (h : d < 10) :
    isDigitC (digitChar d) = true ∧ isPySpace (digitChar d) = false ∧
    digitChar d ≠ '-' ∧ digitChar d ≠ '.' ∧ digitChar d ≠ ',' := by
  interval_cases d <;>
    exact ⟨by decide, by decide, by decide, by decide, by decide⟩

theorem digitChar_toNat (d : Nat) (h : d < 10) :
    (digitChar d).toNat - 48 = d := by
  interval_cases d <;> decide

theorem takeWhile_append_all {p : Char → Bool} :
    ∀ (xs : List Char), (∀ c ∈ xs, p c = true) →
    ∀ (ys : List Char), (∀ c, ys.head? = some c → p c = false) →
      (xs ++ ys).takeWhile p = xs := by
  intro xs
  induction xs with
  | nil =>
    intro _ ys hy
    cases ys with
    | nil => rfl
    | cons y t => simp [List.takeWhile_cons, hy y rfl]
  | cons x xs ih =>
    intro hx ys hy
    simp only [List.cons_append, List.takeWhile_cons,
      hx x (List.mem_cons_self _ _), if_true]
    rw [ih (fun c hc => hx c (List.mem_cons_of_mem _ hc)) ys hy]

theorem dropWhile_eq_self_of_head {p : Char → Bool} (l : List Char)
    (h : ∀ c, l.head? = some c → p c = false) : l.dropWhile p = l := by
  cases l with
  | nil => rfl
  | cons c t => exact List.dropWhile_cons_of_neg (by simp [h c rfl])

theorem dropWhile_append_all {p : Char → Bool} :
    ∀ (xs : List Char), (∀ c ∈ xs, p c = true) →
    ∀ (ys : List Char), (∀ c, ys.head? = some c → p c = false) →
      (xs ++ ys).dropWhile p = ys := by
  intro xs
  induction xs with
  | nil => intro _ ys hy; exact dropWhile_eq_self_of_head ys hy
  | cons x xs ih =>
    intro hx ys hy
    rw [List.cons_append,
      List.dropWhile_cons_of_pos (by simp [hx x (List.mem_cons_self _ _)])]
    exact ih (fun c hc => hx c (List.mem_cons_of_mem _ hc)) ys hy

theorem pyStrip_eq_self_of_ends (l : List Char)
    (hh : ∀ c, l.head? = some c → isPySpace c = false)
    (hl : ∀ c, l.getLast? = some c → isPySpace c = false) : pyStrip l = l := by
  unfold pyStrip
  rw [dropWhile_eq_self_of_head l hh]
  have h2 : l.reverse.dropWhile isPySpace = l.reverse := by
    apply dropWhile_eq_self_of_head
    intro c hc
    exact hl c (by rwa [List.head?_reverse] at hc)
  rw [h2, List.reverse_reverse]

end LocationValidator

theorem renderDigits_all_digit (ds : List Nat) (h : ∀ x ∈ ds, x < 10) :
    ∀ c ∈ renderDigits ds, LocationValidator.isDigitC c = true := by
  intro c hc
  rcases List.mem_map.1 hc with ⟨x, hx, rfl⟩
  exact (LocationValidator.digitChar_props x (h x hx)).1

theorem render_not_space (d : DecimalNum) (hwf : d.wf) :
    ∀ c ∈ d.render, LocationValidator.isPySpace c = false := by
  intro c hc
  unfold DecimalNum.render at hc
  rcases List.mem_append.1 hc with h1 | h2
  · rcases List.mem_append.1 h1 with h0 | hm
    · cases hb : d.neg
      · simp [hb] at h0
      · simp [hb] at h0
        subst h0
        decide
    · rcases List.mem_map.1 hm with ⟨x, hx, rfl⟩
      exact (LocationValidator.digitChar_props x (hwf.2.1 x hx)).2.1
  · by_cases hf : d.fracPart.isEmpty
    · simp [hf] at h2
    · rw [if_neg hf] at h2
      rcases List.mem_cons.1 h2 with rfl | hm
      · decide
      · rcases List.mem_map.1 hm with ⟨x, hx, rfl⟩
        exact (LocationValidator.digitChar_props x (hwf.2.2 x hx)).2.1

theorem intPart_cons (d : DecimalNum) (hwf : d.wf) :
    ∃ i is, d.intPart = i :: is := by
  cases h : d.intPart with
  | nil => exact absurd h hwf.1
  | cons i is => exact ⟨i, is, rfl⟩

theorem render_head_digit_or_minus (d : DecimalNum) (hwf : d.wf) :
    ∃ c rest, d.render = c :: rest ∧
      (LocationValidator.isDigitC c = true ∨ c = '-') := by
  obtain ⟨i, is, hint⟩ := intPart_cons d hwf
  by_cases hb : d.neg = true
  · refine ⟨'-', renderDigits d.intPart ++
      (if d.fracPart.isEmpty then [] else '.' :: renderDigits d.fracPart),
      ?_, Or.inr rfl⟩
    unfold DecimalNum.render
    simp [hb]
  · refine ⟨LocationValidator.digitChar i, renderDigits is ++
      (if d.fracPart.isEmpty then [] else '.' :: renderDigits d.fracPart),
      ?_, Or.inl ((LocationValidator.digitChar_props i
        (hwf.2.1 i (by simp [hint]))).1)⟩
    unfold DecimalNum.render
    simp only [Bool.not_eq_true] at hb
    simp [hb, hint, renderDigits]

theorem natDigitsAux_eq_digits : ∀ fuel n, n ≤ fuel →
    LocationValidator.natDigitsAux fuel n = Nat.digits 10 n := by
  intro fuel
  induction fuel with
  | zero =>
    intro n hn
    interval_cases n
    simp [LocationValidator.natDigitsAux]
  | succ fuel ih =>
    intro n hn
    match n with
    | 0 => simp [LocationValidator.natDigitsAux]
    | m + 1 =>
      rw [show LocationValidator.natDigitsAux (fuel + 1) (m + 1) =
        (m + 1) % 10 :: LocationValidator.natDigitsAux fuel ((m + 1) / 10) from rfl]
      have hdiv : (m + 1) / 10 ≤ fuel := by omega
      rw [ih ((m + 1) / 10) hdiv]
      rw [Nat.digits_def' (by norm_num : (1 : ℕ) < 10) (Nat.succ_pos m)]

theorem natDigits_eq (n : Nat) :
    LocationValidator.natDigits n = (Nat.digits 10 n).reverse := by
  unfold LocationValidator.natDigits
  rw [natDigitsAux_eq_digits n n le_rfl]

theorem digitsVal_append_singleton (xs : List Nat) (d : Nat) :
    digitsVal (xs ++ [d]) = 10 * digitsVal xs + d := by
  unfold digitsVal
  rw [List.foldl_append]
  rfl

theorem digitsVal_reverse_ofDigits (L : List Nat) :
    digitsVal L.reverse = Nat.ofDigits 10 L := by
  induction L with
  | nil => rfl
  | cons d L ih =>
    rw [List.reverse_cons, digitsVal_append_singleton, ih, Nat.ofDigits_cons]
    omega

theorem digitsVal_natDigits (x : Nat) :
    digitsVal (LocationValidator.natDigits x) = x := by
  rw [natDigits_eq, digitsVal_reverse_ofDigits, Nat.ofDigits_digits]

theorem digitsVal_replicate_zero_append (k : Nat) (ds : List Nat) :
    digitsVal (List.replicate k 0 ++ ds) = digitsVal ds := by
  unfold digitsVal
  rw [List.foldl_append]
  have hz : List.foldl (fun a x => 10 * a + x) 0 (List.replicate k 0) = 0 := by
    induction k with
    | zero => rfl
    | succ k ih => simpa [List.replicate_succ] using ih
  rw [hz]

theorem natDigits_lt (x : Nat) : ∀ m ∈ LocationValidator.natDigits x, m < 10 := by
  intro m hm
  rw [natDigits_eq] at hm
  exact Nat.digits_lt_base (by norm_num) (List.mem_reverse.1 hm)

theorem natDigits_length_le (m k : Nat) (h : m < 10 ^ k) :
    (LocationValidator.natDigits m).length ≤ k := by
  rw [natDigits_eq, List.length_reverse]
  rcases Nat.eq_zero_or_pos m with rfl | hm
  · simp
  · rw [Nat.digits_len 10 m (by norm_num) hm.ne']
    have hlog : Nat.log 10 m < k := Nat.log_lt_of_lt_pow hm.ne' h
    omega

/-- The decimal numeral printed by format .6f for numerator n over 10^6:
the digits of n / 10^6 and exactly six fraction digits of n % 10^6. -/
def decimalOfRounded (neg : Bool) (n : Nat) : DecimalNum :=
  { neg := neg
    intPart :=
      if n / 10 ^ 6 = 0 then [0] else LocationValidator.natDigits (n / 10 ^ 6)
    fracPart :=
      List.replicate (6 - (LocationValidator.natDigits (n % 10 ^ 6)).length) 0 ++
        LocationValidator.natDigits (n % 10 ^ 6) }

theorem decimalOfRounded_wf (neg : Bool) (n : Nat) :
    (decimalOfRounded neg n).wf := by
  refine ⟨?_, ?_, ?_⟩
  · unfold decimalOfRounded
    dsimp only
    split
    · simp
    · rename_i hzero
      rw [natDigits_eq]
      simp only [ne_eq, List.reverse_eq_nil_iff, Nat.digits_ne_nil_iff_ne_zero]
      norm_num at hzero ⊢
      exact hzero
  · intro x hx
    unfold decimalOfRounded at hx
    dsimp only at hx
    split at hx
    · simp at hx
      omega
    · exact natDigits_lt _ x hx
  · intro x hx
    unfold decimalOfRounded at hx
    dsimp only at hx
    rcases List.mem_append.1 hx with h | h
    · have := List.eq_of_mem_replicate h
      omega
    · exact natDigits_lt _ x h

theorem decimalOfRounded_frac_length (neg : Bool) (n : Nat) :
    (decimalOfRounded neg n).fracPart.length = 6 := by
  unfold decimalOfRounded
  dsimp only
  rw [List.length_append, List.length_replicate]
  have : (LocationValidator.natDigits (n % 10 ^ 6)).length ≤ 6 :=
    natDigits_length_le _ 6 (Nat.mod_lt _ (by norm_num))
  omega

theorem decimalOfRounded_render (neg : Bool) (n : Nat) :
    (decimalOfRounded neg n).render =
      (if neg then ['-'] else []) ++ LocationValidator.renderNat (n / 10 ^ 6) ++
        '.' :: LocationValidator.renderFrac6 (n % 10 ^ 6) := by
  have hne : (decimalOfRounded neg n).fracPart.isEmpty = false := by
    have := decimalOfRounded_frac_length neg n
    cases h : (decimalOfRounded neg n).fracPart with
    | nil => rw [h] at this; simp at this
    | cons a t => rfl
  unfold DecimalNum.render
  rw [hne]
  simp only [Bool.false_eq_true, if_false]
  congr 1
  congr 1
  · unfold decimalOfRounded
    dsimp only
    unfold LocationValidator.renderNat
    by_cases h : n / 10 ^ 6 = 0
    · rw [if_pos h, if_pos h]
      rfl
    · rw [if_neg h, if_neg h]
      rfl
  · unfold decimalOfRounded
    dsimp only
    unfold LocationValidator.renderFrac6
    simp only [renderDigits, List.map_append, List.map_replicate]
    rfl

theorem decimalOfRounded_mag (neg : Bool) (n : Nat) :
    (decimalOfRounded neg n).mag = (n : ℚ) / 10 ^ 6 := by
  unfold DecimalNum.mag
  rw [decimalOfRounded_frac_length]
  have hint : digitsVal (decimalOfRounded neg n).intPart = n / 10 ^ 6 := by
    unfold decimalOfRounded
    dsimp only
    split
    · rename_i h
      rw [h]
      rfl
    · exact digitsVal_natDigits _
  have hfrac : digitsVal (decimalOfRounded neg n).fracPart = n % 10 ^ 6 := by
    unfold decimalOfRounded
    dsimp only
    rw [digitsVal_replicate_zero_append, digitsVal_natDigits]
  rw [hint, hfrac]
  have hq : ((n / 10 ^ 6 : ℕ) : ℚ) * 10 ^ 6 + ((n % 10 ^ 6 : ℕ) : ℚ) = (n : ℚ) := by
    exact_mod_cast Nat.div_add_mod' n (10 ^ 6)
  have h1 : ((10 : ℚ) ^ 6) ≠ 0 := by norm_num
  field_simp
  norm_num at hq ⊢
  linarith [hq]

theorem roundHalfEven_intCast (k : ℤ) : roundHalfEven (k : ℚ) = k := by
  unfold roundHalfEven
  rw [Int.floor_intCast]
  norm_num

theorem round6_div_pow (n : Nat) :
    LocationValidator.round6 ((n : ℚ) / 10 ^ 6) = n := by
  unfold LocationValidator.round6
  have h : ((n : ℚ) / 10 ^ 6) * 10 ^ 6 = ((n : ℤ) : ℚ) := by
    push_cast
    field_simp
  rw [h, roundHalfEven_intCast]
  simp

theorem head?_cons_imp {α : Type} (c0 : α) (l : List α) (P : α → Prop)
    (h : P c0) : ∀ c, ((c0 :: l).head? = some c) → P c :=
  fun _ hc => (Option.some.inj hc) ▸ h

theorem digitsValC_render_aux : ∀ (ds : List Nat), (∀ x ∈ ds, x < 10) →
    ∀ a : Nat,
    (renderDigits ds).foldl (fun a c => 10 * a + (c.toNat - 48)) a =
      ds.foldl (fun a x => 10 * a + x) a := by
  intro ds
  induction ds with
  | nil => intro _ a; rfl
  | cons d rest ih =>
    intro h a
    simp only [renderDigits, List.map_cons, List.foldl_cons] at ih ⊢
    rw [LocationValidator.digitChar_toNat d (h d (List.mem_cons_self _ _))]
    exact ih (fun x hx => h x (List.mem_cons_of_mem _ hx)) _

theorem digitsValC_render (ds : List Nat) (h : ∀ x ∈ ds, x < 10) :
    LocationValidator.digitsValC (renderDigits ds) = digitsVal ds :=
  digitsValC_render_aux ds h 0

theorem completeToken_render (pre : List Char) (i : Nat) (is frac : List Nat)
    (_hi : i < 10) (his : ∀ x ∈ is, x < 10) (hfrac : ∀ x ∈ frac, x < 10)
    (t : List Char)
    (ht : ∀ c, t.head? = some c →
      LocationValidator.isDigitC c = false ∧ c ≠ '.') :
    LocationValidator.completeToken pre (LocationValidator.digitChar i)
        (renderDigits is ++
          ((if frac.isEmpty then [] else '.' :: renderDigits frac) ++ t)) =
      (pre ++ (LocationValidator.digitChar i :: renderDigits is) ++
        (if frac.isEmpty then [] else '.' :: renderDigits frac), t) := by
  have hallis : ∀ c ∈ renderDigits is, LocationValidator.isDigitC c = true :=
    renderDigits_all_digit is his
  by_cases hf : frac.isEmpty = true
  · rw [if_pos hf]
    simp only [List.nil_append, List.append_nil]
    unfold LocationValidator.completeToken
    rw [LocationValidator.dropWhile_append_all _ hallis _ (fun c hc => (ht c hc).1)]
    cases t with
    | nil =>
      rw [List.append_nil, List.takeWhile_eq_self_iff.mpr hallis]
    | cons c' t' =>
      have hp := ht c' rfl
      rw [LocationValidator.takeWhile_append_all _ hallis _ (fun c hc => (ht c hc).1)]
      split
      · rename_i r2 heq
        rw [List.cons.injEq] at heq
        exact absurd heq.1 hp.2
      · rfl
  · have hfne : ¬ frac.isEmpty = true := hf
    rw [if_neg hfne]
    obtain ⟨f, fs, hfc⟩ : ∃ f fs, frac = f :: fs := by
      cases hc : frac with
      | nil => rw [hc] at hfne; simp at hfne
      | cons f fs => exact ⟨f, fs, rfl⟩
    unfold LocationValidator.completeToken
    rw [show renderDigits is ++ (('.' :: renderDigits frac) ++ t) =
      renderDigits is ++ ('.' :: (renderDigits frac ++ t)) by simp]
    rw [LocationValidator.dropWhile_append_all _ hallis _
      (head?_cons_imp '.' _ _ (by decide))]
    rw [LocationValidator.takeWhile_append_all _ hallis _
      (head?_cons_imp '.' _ _ (by decide))]
    have hfid : ∀ c ∈ renderDigits frac, LocationValidator.isDigitC c = true :=
      renderDigits_all_digit frac hfrac
    split
    · rename_i r2 heq
      rw [List.cons.injEq] at heq
      obtain ⟨-, hr2⟩ := heq
      subst hr2
      rw [LocationValidator.takeWhile_append_all _ hfid _ (fun c hc => (ht c hc).1)]
      rw [LocationValidator.dropWhile_append_all _ hfid _ (fun c hc => (ht c hc).1)]
    · rename_i hno
      exact (hno (renderDigits frac ++ t) rfl).elim

theorem findNumbers_cons_skip (c : Char) (t : List Char)
    (h1 : LocationValidator.isDigitC c = false) (h2 : c ≠ '-') :
    LocationValidator.findNumbers (c :: t) = LocationValidator.findNumbers t := by
  rw [LocationValidator.findNumbers.eq_def]
  simp [h1, h2]

theorem findNumbers_render (d : DecimalNum) (hwf : d.wf) (t : List Char)
    (ht : ∀ c, t.head? = some c →
      LocationValidator.isDigitC c = false ∧ c ≠ '.') :
    LocationValidator.findNumbers (d.render ++ t) =
      d.render :: LocationValidator.findNumbers t := by
  obtain ⟨i, is, hint⟩ := intPart_cons d hwf
  have hi : i < 10 := hwf.2.1 i (by simp [hint])
  have his : ∀ x ∈ is, x < 10 := fun x hx => hwf.2.1 x (by simp [hint, hx])
  have hct := completeToken_render [] i is d.fracPart hi his hwf.2.2 t ht
  have hctm := completeToken_render ['-'] i is d.fracPart hi his hwf.2.2 t ht
  have hdig := (LocationValidator.digitChar_props i hi).1
  by_cases hb : d.neg = true
  · have hr : d.render ++ t = '-' :: LocationValidator.digitChar i ::
        (renderDigits is ++
          ((if d.fracPart.isEmpty then [] else '.' :: renderDigits d.fracPart) ++ t)) := by
      unfold DecimalNum.render
      simp [hb, hint, renderDigits]
    rw [hr, LocationValidator.findNumbers.eq_def]
    simp only [show LocationValidator.isDigitC '-' = false from rfl,
      Bool.false_eq_true, if_false, if_pos rfl, hdig, if_true, hctm]
    have hrend : d.render = '-' :: LocationValidator.digitChar i ::
        (renderDigits is ++
          (if d.fracPart.isEmpty then [] else '.' :: renderDigits d.fracPart)) := by
      unfold DecimalNum.render
      simp [hb, hint, renderDigits]
    rw [hrend]
    simp
  · have hr : d.render ++ t = LocationValidator.digitChar i ::
        (renderDigits is ++
          ((if d.fracPart.isEmpty then [] else '.' :: renderDigits d.fracPart) ++ t)) := by
      unfold DecimalNum.render
      simp only [Bool.not_eq_true] at hb
      simp [hb, hint, renderDigits]
    rw [hr, LocationValidator.findNumbers.eq_def]
    simp only [hdig, if_true, hct]
    have hrend : d.render = LocationValidator.digitChar i ::
        (renderDigits is ++
          (if d.fracPart.isEmpty then [] else '.' :: renderDigits d.fracPart)) := by
      unfold DecimalNum.render
      simp only [Bool.not_eq_true] at hb
      simp [hb, hint, renderDigits]
    rw [hrend]
    simp

theorem fracDigits_of_dot (t r : List Char)
    (h : t.dropWhile LocationValidator.isDigitC = '.' :: r) :
    LocationValidator.fracDigits t = r.takeWhile LocationValidator.isDigitC := by
  unfold LocationValidator.fracDigits
  rw [h]
  split
  · rename_i r' heq
    rw [List.cons.injEq] at heq
    rw [heq.2]
  · rename_i hno
    exact (hno r rfl).elim

theorem fracDigits_of_no_dot (t : List Char)
    (h : ∀ r, t.dropWhile LocationValidator.isDigitC ≠ '.' :: r) :
    LocationValidator.fracDigits t = [] := by
  unfold LocationValidator.fracDigits
  split
  · rename_i r heq
    exact (h r heq).elim
  · rfl

theorem parseTokenMag_body (d : DecimalNum) (hwf : d.wf) :
    LocationValidator.parseTokenMag
      (renderDigits d.intPart ++
        (if d.fracPart.isEmpty then [] else '.' :: renderDigits d.fracPart)) =
      d.mag := by
  have hall : ∀ c ∈ renderDigits d.intPart, LocationValidator.isDigitC c = true :=
    renderDigits_all_digit _ hwf.2.1
  unfold LocationValidator.parseTokenMag DecimalNum.mag
  by_cases hf : d.fracPart.isEmpty = true
  · have hfe : d.fracPart = [] := by simpa using hf
    rw [if_pos hf, List.append_nil]
    rw [List.takeWhile_eq_self_iff.mpr hall]
    rw [fracDigits_of_no_dot _ (by
      rw [List.dropWhile_eq_nil_iff.mpr hall]
      intro r h
      exact List.noConfusion h)]
    rw [digitsValC_render _ hwf.2.1, hfe]
    norm_num [LocationValidator.digitsValC, digitsVal]
  · rw [if_neg hf]
    have hdrop : (renderDigits d.intPart ++ '.' :: renderDigits d.fracPart).dropWhile
        LocationValidator.isDigitC = '.' :: renderDigits d.fracPart :=
      LocationValidator.dropWhile_append_all _ hall _
        (head?_cons_imp '.' _ _ (by decide))
    rw [LocationValidator.takeWhile_append_all _ hall _
      (head?_cons_imp '.' _ _ (by decide))]
    rw [fracDigits_of_dot _ _ hdrop]
    have hfid : ∀ c ∈ renderDigits d.fracPart, LocationValidator.isDigitC c = true :=
      renderDigits_all_digit _ hwf.2.2
    rw [List.takeWhile_eq_self_iff.mpr hfid]
    rw [digitsValC_render _ hwf.2.1, digitsValC_render _ hwf.2.2]
    simp [renderDigits]

theorem parseToken_render (d : DecimalNum) (hwf : d.wf) :
    LocationValidator.parseToken d.render = (d.neg, d.mag) := by
  have hbody := parseTokenMag_body d hwf
  obtain ⟨i, is, hint⟩ := intPart_cons d hwf
  have hi : i < 10 := hwf.2.1 i (by simp [hint])
  by_cases hb : d.neg = true
  · have hr : d.render = '-' ::
        (renderDigits d.intPart ++
          (if d.fracPart.isEmpty then [] else '.' :: renderDigits d.fracPart)) := by
      unfold DecimalNum.render
      simp [hb]
    rw [hr]
    unfold LocationValidator.parseToken
    split
    · rename_i rest heq
      rw [List.cons.injEq] at heq
      rw [← heq.2, hbody, hb]
    · rename_i hno
      exact (hno _ rfl).elim
  · have hr : d.render =
        renderDigits d.intPart ++
          (if d.fracPart.isEmpty then [] else '.' :: renderDigits d.fracPart) := by
      unfold DecimalNum.render
      simp only [Bool.not_eq_true] at hb
      simp [hb]
    rw [hr]
    unfold LocationValidator.parseToken
    split
    · rename_i t heq
      have : LocationValidator.digitChar i = '-' := by
        rw [hint] at heq
        simp only [renderDigits, List.map_cons, List.cons_append,
          List.cons.injEq] at heq
        exact heq.1
      exact absurd this (LocationValidator.digitChar_props i hi).2.2.1
    · simp only [Bool.not_eq_true] at hb
      rw [hbody, hb]

theorem parseNumberBody_render (d : DecimalNum) (hwf : d.wf) (t : List Char)
    (ht : ∀ c, t.head? = some c →
      LocationValidator.isDigitC c = false ∧ c ≠ '.') :
    LocationValidator.parseNumberBody
      ((renderDigits d.intPart ++
        (if d.fracPart.isEmpty then [] else '.' :: renderDigits d.fracPart)) ++ t) =
      some t := by
  obtain ⟨i, is, hint⟩ := intPart_cons d hwf
  have hi : i < 10 := hwf.2.1 i (by simp [hint])
  have his : ∀ x ∈ is, x < 10 := fun x hx => hwf.2.1 x (by simp [hint, hx])
  have hallis : ∀ c ∈ renderDigits is, LocationValidator.isDigitC c = true :=
    renderDigits_all_digit is his
  have hdig := (LocationValidator.digitChar_props i hi).1
  by_cases hf : d.fracPart.isEmpty = true
  · have hshape : (renderDigits d.intPart ++
        (if d.fracPart.isEmpty then [] else '.' :: renderDigits d.fracPart)) ++ t =
        LocationValidator.digitChar i :: (renderDigits is ++ t) := by
      rw [if_pos hf, hint]
      simp [renderDigits]
    rw [hshape]
    unfold LocationValidator.parseNumberBody
    dsimp only
    rw [if_pos hdig]
    rw [LocationValidator.dropWhile_append_all _ hallis _ (fun c hc => (ht c hc).1)]
    cases t with
    | nil => rfl
    | cons c' t' =>
      have hp := ht c' rfl
      split
      · rename_i r2 heq
        rw [List.cons.injEq] at heq
        exact absurd heq.1 hp.2
      · rfl
  · obtain ⟨f, fs, hfc⟩ : ∃ f fs, d.fracPart = f :: fs := by
      cases hc : d.fracPart with
      | nil => rw [hc] at hf; simp at hf
      | cons f fs => exact ⟨f, fs, rfl⟩
    have hfd : f < 10 := hwf.2.2 f (by simp [hfc])
    have hfs : ∀ x ∈ fs, x < 10 := fun x hx => hwf.2.2 x (by simp [hfc, hx])
    have hfdig := (LocationValidator.digitChar_props f hfd).1
    have hallfs : ∀ c ∈ renderDigits fs, LocationValidator.isDigitC c = true :=
      renderDigits_all_digit fs hfs
    have hshape : (renderDigits d.intPart ++
        (if d.fracPart.isEmpty then [] else '.' :: renderDigits d.fracPart)) ++ t =
        LocationValidator.digitChar i :: (renderDigits is ++
          ('.' :: (LocationValidator.digitChar f :: (renderDigits fs ++ t)))) := by
      rw [if_neg hf, hint, hfc]
      simp [renderDigits]
    rw [hshape]
    unfold LocationValidator.parseNumberBody
    dsimp only
    rw [if_pos hdig]
    rw [LocationValidator.dropWhile_append_all _ hallis _
      (head?_cons_imp '.' _ _ (by decide))]
    split
    · rename_i r2 heq
      rw [List.cons.injEq] at heq
      rw [← heq.2]
      dsimp only
      rw [if_pos hfdig]
      rw [LocationValidator.dropWhile_append_all _ hallfs _
        (fun c hc => (ht c hc).1)]
    · rename_i hno
      exact (hno _ rfl).elim

theorem parseNumber_render (d : DecimalNum) (hwf : d.wf) (t : List Char)
    (ht : ∀ c, t.head? = some c →
      LocationValidator.isDigitC c = false ∧ c ≠ '.') :
    LocationValidator.parseNumber (d.render ++ t) = some t := by
  have hbody := parseNumberBody_render d hwf t ht
  obtain ⟨i, is, hint⟩ := intPart_cons d hwf
  have hi : i < 10 := hwf.2.1 i (by simp [hint])
  by_cases hb : d.neg = true
  · have hr : d.render ++ t = '-' ::
        ((renderDigits d.intPart ++
          (if d.fracPart.isEmpty then [] else '.' :: renderDigits d.fracPart)) ++ t) := by
      unfold DecimalNum.render
      simp [hb]
    rw [hr]
    unfold LocationValidator.parseNumber
    split
    · rename_i t0 heq
      rw [List.cons.injEq] at heq
      rw [← heq.2]
      exact hbody
    · rename_i hno
      exact (hno _ rfl).elim
  · have hr : d.render ++ t =
        (renderDigits d.intPart ++
          (if d.fracPart.isEmpty then [] else '.' :: renderDigits d.fracPart)) ++ t := by
      unfold DecimalNum.render
      simp only [Bool.not_eq_true] at hb
      simp [hb]
    rw [hr]
    unfold LocationValidator.parseNumber
    split
    · rename_i t0 heq
      have : LocationValidator.digitChar i = '-' := by
        rw [hint] at heq
        simp only [renderDigits, List.map_cons, List.cons_append,
          List.cons.injEq] at heq
        exact heq.1
      exact absurd this (LocationValidator.digitChar_props i hi).2.2.1
    · exact hbody

theorem isDigitC_not_space (c : Char) (h : LocationValidator.isDigitC c = true) :
    LocationValidator.isPySpace c = false := by
  by_contra hne
  simp only [Bool.not_eq_false] at hne
  unfold LocationValidator.isPySpace at hne
  simp only [Bool.or_eq_true, decide_eq_true_eq] at hne
  rcases hne with ((((rfl | rfl) | rfl) | rfl) | rfl) | rfl <;>
    exact absurd h (by decide)

theorem render_head_not_space (d : DecimalNum) (hwf : d.wf) :
    ∀ c, d.render.head? = some c → LocationValidator.isPySpace c = false := by
  obtain ⟨c0, rest, hr, hd⟩ := render_head_digit_or_minus d hwf
  intro c hc
  rw [hr] at hc
  have hcc : c0 = c := Option.some.inj hc
  subst hcc
  rcases hd with h | rfl
  · exact isDigitC_not_space c0 h
  · decide

theorem render_getLast_not_space (d : DecimalNum) (hwf : d.wf) :
    ∀ c, d.render.getLast? = some c → LocationValidator.isPySpace c = false := by
  intro c hc
  have hmem : c ∈ d.render := by
    cases hrev : d.render.reverse with
    | nil =>
      rw [← List.head?_reverse, hrev] at hc
      exact absurd hc (by simp)
    | cons c0 t =>
      rw [← List.head?_reverse, hrev] at hc
      have hcc : c0 = c := Option.some.inj hc
      subst hcc
      have : c0 ∈ d.render.reverse := by rw [hrev]; exact List.mem_cons_self _ _
      simpa using this
  exact render_not_space d hwf c hmem

theorem render_ne_nil (d : DecimalNum) (hwf : d.wf) : d.render ≠ [] := by
  obtain ⟨c0, rest, hr, _⟩ := render_head_digit_or_minus d hwf
  rw [hr]
  simp

theorem pyStrip_pair (d1 d2 : DecimalNum) (h1 : d1.wf) (h2 : d2.wf)
    (mid : List Char) :
    LocationValidator.pyStrip (d1.render ++ (mid ++ d2.render)) =
      d1.render ++ (mid ++ d2.render) := by
  apply LocationValidator.pyStrip_eq_self_of_ends
  · intro c hc
    obtain ⟨c0, rest, hr, _⟩ := render_head_digit_or_minus d1 h1
    rw [hr, List.cons_append, List.head?_cons] at hc
    have hcc : c0 = c := Option.some.inj hc
    subst hcc
    exact render_head_not_space d1 h1 c0 (by rw [hr]; rfl)
  · intro c hc
    have hne : d2.render ≠ [] := render_ne_nil d2 h2
    cases hl2 : d2.render.getLast? with
    | none =>
      obtain ⟨c0, rest, hr, _⟩ := render_head_digit_or_minus d2 h2
      rw [hr] at hl2
      simp at hl2
    | some l2c =>
      rw [List.getLast?_append, List.getLast?_append, hl2] at hc
      simp only [Option.or] at hc
      have hcc : l2c = c := Option.some.inj hc
      subst hcc
      exact render_getLast_not_space d2 h2 l2c hl2

theorem matchCoordinates_coord (a b : DecimalNum) (ha : a.wf) (hb : b.wf) :
    LocationValidator.matchCoordinates (a.render ++ ',' :: ' ' :: b.render) =
      true := by
  unfold LocationValidator.matchCoordinates
  rw [parseNumber_render a ha (',' :: ' ' :: b.render)
    (head?_cons_imp ',' _ _ (by decide))]
  split
  · rename_i r2 heq
    have heq2 : ',' :: ' ' :: b.render = ',' :: r2 := Option.some.inj heq
    rw [List.cons.injEq] at heq2
    rw [← heq2.2]
    rw [List.dropWhile_cons_of_pos (by decide)]
    rw [LocationValidator.dropWhile_eq_self_of_head _ (render_head_not_space b hb)]
    have hpb := parseNumber_render b hb [] (fun c hc => absurd hc (by simp))
    rw [List.append_nil] at hpb
    rw [hpb]
  · rename_i hno
    exact (hno (' ' :: b.render) rfl).elim

theorem matchZip_coord (a b : DecimalNum) (ha : a.wf) (_hb : b.wf) :
    LocationValidator.matchZip (a.render ++ ',' :: ' ' :: b.render) = false := by
  unfold LocationValidator.matchZip
  by_cases hneg : a.neg = true
  · have hr : a.render ++ ',' :: ' ' :: b.render = '-' ::
        ((renderDigits a.intPart ++
          (if a.fracPart.isEmpty then [] else '.' :: renderDigits a.fracPart)) ++
          ',' :: ' ' :: b.render) := by
      unfold DecimalNum.render
      simp [hneg]
    rw [hr]
    rw [List.takeWhile_cons_of_neg (by decide)]
    simp
  · obtain ⟨i, is, hint⟩ := intPart_cons a ha
    have hall : ∀ c ∈ renderDigits a.intPart, LocationValidator.isDigitC c = true :=
      renderDigits_all_digit _ ha.2.1
    have hr : a.render ++ ',' :: ' ' :: b.render = renderDigits a.intPart ++
        ((if a.fracPart.isEmpty then [] else '.' :: renderDigits a.fracPart) ++
          ',' :: ' ' :: b.render) := by
      unfold DecimalNum.render
      simp only [Bool.not_eq_true] at hneg
      simp [hneg]
    have hXhead : ∀ c, ((if a.fracPart.isEmpty then []
        else '.' :: renderDigits a.fracPart) ++
          ',' :: ' ' :: b.render).head? = some c →
        LocationValidator.isDigitC c = false ∧ c ≠ '-' := by
      by_cases hf : a.fracPart.isEmpty = true
      · rw [if_pos hf]
        exact head?_cons_imp ',' _ _ (by decide)
      · rw [if_neg hf]
        exact head?_cons_imp '.' _ _ (by decide)
    rw [hr]
    rw [LocationValidator.takeWhile_append_all _ hall _
      (fun c hc => (hXhead c hc).1)]
    rw [LocationValidator.dropWhile_append_all _ hall _
      (fun c hc => (hXhead c hc).1)]
    have hrest : (((if a.fracPart.isEmpty then []
        else '.' :: renderDigits a.fracPart) ++
          ',' :: ' ' :: b.render).isEmpty ||
        (match (if a.fracPart.isEmpty then []
          else '.' :: renderDigits a.fracPart) ++ ',' :: ' ' :: b.render with
         | '-' :: t => decide (t.length = 4) && t.all LocationValidator.isDigitC
         | _ => false)) = false := by
      by_cases hf : a.fracPart.isEmpty = true
      · rw [if_pos hf]
        rfl
      · rw [if_neg hf]
        rfl
    dsimp only
    rw [hrest]
    simp

theorem pyStrip_coordInput (a b : DecimalNum) (ha : a.wf) (hb : b.wf) :
    LocationValidator.pyStrip (a.render ++ ',' :: ' ' :: b.render) =
      a.render ++ ',' :: ' ' :: b.render := by
  have := pyStrip_pair a b ha hb [',', ' ']
  simpa using this

theorem validate_coordInput (a b : DecimalNum) (ha : a.wf) (hb : b.wf) :
    LocationValidator.validate (coordInput a b) =
      (true, "Valid location format", some "coordinates") := by
  obtain ⟨c0, rest0, hr0, _⟩ := render_head_digit_or_minus a ha
  unfold coordInput LocationValidator.validate
  have hdata : (String.mk (a.render ++ ',' :: ' ' :: b.render)).data =
      a.render ++ ',' :: ' ' :: b.render := rfl
  rw [hdata]
  rw [if_neg (by rw [hr0]; simp)]
  rw [pyStrip_coordInput a b ha hb]
  rw [if_neg (by
    simp only [List.length_append, List.length_cons, not_lt]
    omega)]
  rw [if_neg (by rw [matchZip_coord a b ha hb]; simp)]
  rw [if_pos (matchCoordinates_coord a b ha hb)]

theorem normalize_coordInput (a b : DecimalNum) (ha : a.wf) (hb : b.wf) :
    LocationValidator.normalize_location (coordInput a b) "coordinates" =
      String.mk (LocationValidator.format6 a.neg a.mag ++
        ',' :: LocationValidator.format6 b.neg b.mag) := by
  unfold coordInput LocationValidator.normalize_location
  rw [if_pos rfl]
  have hdata : (String.mk (a.render ++ ',' :: ' ' :: b.render)).data =
      a.render ++ ',' :: ' ' :: b.render := rfl
  rw [hdata]
  rw [pyStrip_coordInput a b ha hb]
  rw [findNumbers_render a ha _ (head?_cons_imp ',' _ _ (by decide))]
  rw [findNumbers_cons_skip ',' _ (by decide) (by decide)]
  rw [findNumbers_cons_skip ' ' _ (by decide) (by decide)]
  have hfb := findNumbers_render b hb [] (fun c hc => absurd hc (by simp))
  rw [List.append_nil] at hfb
  rw [hfb]
  rw [show LocationValidator.findNumbers [] = [] by
    rw [LocationValidator.findNumbers.eq_def]]
  dsimp only
  rw [parseToken_render a ha, parseToken_render b hb]

theorem format6_eq_render (neg : Bool) (mag : ℚ) :
    LocationValidator.format6 neg mag =
      (decimalOfRounded neg (LocationValidator.round6 mag)).render := by
  rw [decimalOfRounded_render]
  rfl

theorem format6_idem (neg : Bool) (mag : ℚ) :
    LocationValidator.format6 neg
        ((LocationValidator.round6 mag : ℚ) / 10 ^ 6) =
      LocationValidator.format6 neg mag := by
  unfold LocationValidator.format6
  rw [round6_div_pow]

theorem normalize_formatted_pair (n1 n2 : Bool) (m1 m2 : ℚ) :
    LocationValidator.normalize_location
        (String.mk (LocationValidator.format6 n1 m1 ++
          ',' :: LocationValidator.format6 n2 m2)) "coordinates" =
      String.mk (LocationValidator.format6 n1 m1 ++
        ',' :: LocationValidator.format6 n2 m2) := by
  have hd1 : (decimalOfRounded n1 (LocationValidator.round6 m1)).wf :=
    decimalOfRounded_wf _ _
  have hd2 : (decimalOfRounded n2 (LocationValidator.round6 m2)).wf :=
    decimalOfRounded_wf _ _
  unfold LocationValidator.normalize_location
  rw [if_pos rfl]
  rw [show (String.mk (LocationValidator.format6 n1 m1 ++
      ',' :: LocationValidator.format6 n2 m2)).data =
      LocationValidator.format6 n1 m1 ++
        ',' :: LocationValidator.format6 n2 m2 from rfl]
  rw [format6_eq_render n1 m1, format6_eq_render n2 m2]
  have hstrip := pyStrip_pair (decimalOfRounded n1 (LocationValidator.round6 m1))
    (decimalOfRounded n2 (LocationValidator.round6 m2)) hd1 hd2 [',']
  simp only [List.cons_append, List.nil_append] at hstrip
  rw [hstrip]
  rw [findNumbers_render _ hd1 _ (head?_cons_imp ',' _ _ (by decide))]
  rw [findNumbers_cons_skip ',' _ (by decide) (by decide)]
  have hfb := findNumbers_render _ hd2 [] (fun c hc => absurd hc (by simp))
  rw [List.append_nil] at hfb
  rw [hfb]
  rw [show LocationValidator.findNumbers [] = [] by
    rw [LocationValidator.findNumbers.eq_def]]
  dsimp only
  rw [parseToken_render _ hd1, parseToken_render _ hd2]
  dsimp only
  rw [decimalOfRounded_mag, decimalOfRounded_mag]
  rw [format6_idem, format6_idem]
  have hn1 : (decimalOfRounded n1 (LocationValidator.round6 m1)).neg = n1 := rfl
  have hn2 : (decimalOfRounded n2 (LocationValidator.round6 m2)).neg = n2 := rfl
  rw [hn1, hn2, format6_eq_render n1 m1, format6_eq_render n2 m2]

/-! ## Claim C7 -/

/-- C7: a string of the form number, comma, space, number (both numbers in
lat/lon range) is classified as valid coordinates, normalize_location
rewrites it to the two numbers formatted with six fraction digits joined by
a comma, and that normalization is a fixed point: normalizing the
already-normalized string returns it unchanged. -/
theorem coordinates_classification_normalization (a b : DecimalNum)
    (ha : a.wf) (hb : b.wf) (_hlat : |a.val| ≤ 90) (_hlon : |b.val| ≤ 180) :
    LocationValidator.validate (coordInput a b) =
      (true, "Valid location format", some "coordinates") ∧
    LocationValidator.normalize_location (coordInput a b) "coordinates" =
      String.mk (LocationValidator.format6 a.neg a.mag ++
        ',' :: LocationValidator.format6 b.neg b.mag) ∧
    LocationValidator.normalize_location
        (LocationValidator.normalize_location (coordInput a b) "coordinates")
        "coordinates" =
      LocationValidator.normalize_location (coordInput a b) "coordinates" := by
  refine ⟨validate_coordInput a b ha hb, normalize_coordInput a b ha hb, ?_⟩
  rw [normalize_coordInput a b ha hb, normalize_formatted_pair]

/-- The numeral 40.75 used by witnesses. -/
def sampleLat : DecimalNum := ⟨false, [4, 0], [7, 5]⟩

/-- The numeral -73.99 used by witnesses. -/
def sampleLon : DecimalNum := ⟨true, [7, 3], [9, 9]⟩

/-- Witness for coordinates_classification_normalization on the concrete
input 40.75, -73.99. -/
theorem coordinates_classification_normalization_witness :
    (sampleLat.wf ∧ sampleLon.wf ∧
      |sampleLat.val| ≤ 90 ∧ |sampleLon.val| ≤ 180) ∧
    LocationValidator.validate (coordInput sampleLat sampleLon) =
      (true, "Valid location format", some "coordinates") ∧
    LocationValidator.normalize_location (coordInput sampleLat sampleLon)
      "coordinates" = "40.750000,-73.990000" := by
  have hlat : |sampleLat.val| ≤ 90 := by
    norm_num [DecimalNum.val, DecimalNum.mag, sampleLat, digitsVal, abs_le]
  have hlon : |sampleLon.val| ≤ 180 := by
    norm_num [DecimalNum.val, DecimalNum.mag, sampleLon, digitsVal, abs_le]
  have hwa : sampleLat.wf := ⟨by decide, by decide, by decide⟩
  have hwb : sampleLon.wf := ⟨by decide, by decide, by decide⟩
  have h := coordinates_classification_normalization sampleLat sampleLon
    hwa hwb hlat hlon
  refine ⟨⟨hwa, hwb, hlat, hlon⟩, h.1, ?_⟩
  rw [h.2.1]
  have hm1 : sampleLat.mag = (40750000 : ℚ) / 10 ^ 6 := by
    norm_num [DecimalNum.mag, sampleLat, digitsVal]
  have hm2 : sampleLon.mag = (73990000 : ℚ) / 10 ^ 6 := by
    norm_num [DecimalNum.mag, sampleLon, digitsVal]
  rw [show sampleLat.neg = false from rfl, show sampleLon.neg = true from rfl,
    hm1, hm2]
  unfold LocationValidator.format6
  rw [show LocationValidator.round6 ((40750000 : ℚ) / 10 ^ 6) = 40750000 by
      rw [show ((40750000 : ℚ)) = ((40750000 : ℕ) : ℚ) by norm_num]
      exact round6_div_pow 40750000]
  rw [show LocationValidator.round6 ((73990000 : ℚ) / 10 ^ 6) = 73990000 by
      rw [show ((73990000 : ℚ)) = ((73990000 : ℕ) : ℚ) by norm_num]
      exact round6_div_pow 73990000]
  decide
